import Mathlib

/-!
Verification development for the eBay posting-automation repository.

The definitions below are a shallow embedding of the row-normalisation and
workbook-append logic of `append_json_queue_to_excel.py`,
`json_to_ebay_excel.py` and the `truncate` helper of
`batch_generate_ebay_workbook.py`.  Python values appearing in cells and
payloads are modelled by `PyVal`; Python strings by Lean `String`
(a list of unicode scalar values, matching Python's `str`); Python `int`
by `Int`; Python `float` by `Rat` (every float that the scripts produce
from a short decimal literal is an exact decimal, so `Rat` represents the
values the code computes with); fallible operations return `Option` or
`Except`.
-/

/-- Model of a Python scalar value as stored in JSON payloads and cells.
`vNone` is Python `None` (also an openpyxl empty cell). -/
inductive PyVal where
  | vNone : PyVal
  | vStr (s : String) : PyVal
  | vInt (n : Int) : PyVal
  | vFloat (q : Rat) : PyVal
deriving DecidableEq, Repr

/-- Python truthiness for the modelled scalars. -/
def pyTruthy : PyVal → Bool
  | .vNone => false
  | .vStr s => !(s == "")
  | .vInt n => !(n == 0)
  | .vFloat q => !(q == 0)

/-- Membership test `value in (None, "")` used by both append scripts to
recognise an empty cell or empty row value. -/
def cellEmpty : PyVal → Bool
  | .vNone => true
  | .vStr s => s == ""
  | _ => false

/-- The narrower test `isinstance(value, str) and value == ""` used by
`apply_row` in json_to_ebay_excel.py. -/
def isEmptyStr : PyVal → Bool
  | .vStr s => s == ""
  | _ => false

/-- Whitespace recognised by Python's `str.strip` (the ASCII part, which is
all the scripts' data ever contains). -/
def isPySpace (c : Char) : Bool :=
  c == ' ' || c == '\t' || c == '\n' || c == '\r' || c == '\x0b' || c == '\x0c'

/-- Left strip on the character list. -/
def lstripL (l : List Char) : List Char := l.dropWhile isPySpace

/-- Right strip on the character list. -/
def rstripL : List Char → List Char
  | [] => []
  | c :: rest =>
    match rstripL rest with
    | [] => if isPySpace c then [] else [c]
    | r => c :: r

/-- Python `str.strip()`. -/
def pyStrip (s : String) : String := ⟨rstripL (lstripL s.data)⟩

/-- Python `str.rstrip()`. -/
def pyRstrip (s : String) : String := ⟨rstripL s.data⟩

/-- Python `str.lower()` (character-wise, which covers the ASCII header
names the scripts compare). -/
def pyLowerStr (s : String) : String := ⟨s.data.map Char.toLower⟩

/-- Python `str.endswith(suffix)`. -/
def pyEndsWith (s suffix : String) : Bool :=
  suffix.data.isSuffixOf s.data

/-- Worker for Python `str.replace`: `b :: bs` is the pattern, `new` the
replacement; the `Nat` counts characters of a just-matched pattern still to
be consumed. -/
def replAux (b : Char) (bs new : List Char) : Nat → List Char → List Char
  | _, [] => []
  | 0, c :: rest =>
    if b == c && bs.isPrefixOf rest then new ++ replAux b bs new bs.length rest
    else c :: replAux b bs new 0 rest
  | k + 1, _ :: rest => replAux b bs new k rest

/-- Python `str.replace` on character lists (all non-overlapping
occurrences, scanned left to right). -/
def replaceCore (old new s : List Char) : List Char :=
  match old with
  | [] => new ++ (s.map (fun c => c :: new)).flatten
  | b :: bs => replAux b bs new 0 s

/-- Python `s.replace(old, new)`. -/
def pyReplace (s old new : String) : String := ⟨replaceCore old.data new.data s.data⟩

/-- Apply a replacement table in order, as the `for bad, good in
replacements.items()` loops do. -/
def applyTbl (tbl : List (String × String)) (s : String) : String :=
  tbl.foldl (fun t p => pyReplace t p.1 p.2) s

/-- Python slice `s[:k]` for an arbitrary signed bound. -/
def pySliceTo (s : String) (k : Int) : String :=
  ⟨s.data.take (if k < 0 then ((s.data.length : Int) + k).toNat else k.toNat)⟩

/-- `truncate` from batch_generate_ebay_workbook.py. -/
def truncate (text : String) (limit : Int) : String :=
  if (text.length : Int) ≤ limit then text
  else if limit ≤ 3 then pySliceTo text limit
  else pyRstrip (pySliceTo text (limit - 3)) ++ "..."

/-- Digits to a natural number, most significant first. -/
def digitsToNat (l : List Char) : Nat :=
  l.foldl (fun n c => n * 10 + (c.toNat - 48)) 0

/-- Model of Python `float(s)` on a plain decimal literal: optional
surrounding whitespace, optional sign, digits with at most one decimal
point and at least one digit.  (Exponents, `inf`/`nan` and underscores are
not modelled; the scripts only ever convert plain decimals.)  The value of
a short decimal literal is returned exactly. -/
def parseDecimal (s : String) : Option Rat :=
  let t := (pyStrip s).data
  let (neg, t) :=
    match t with
    | '-' :: r => (true, r)
    | '+' :: r => (false, r)
    | r => (false, r)
  let intPart := t.takeWhile (fun c => c.isDigit)
  let rest := t.dropWhile (fun c => c.isDigit)
  let fracPart :=
    match rest with
    | '.' :: fr => some fr
    | [] => some []
    | _ => none
  match fracPart with
  | none => none
  | some fr =>
    if fr.all (fun c => c.isDigit) && !(intPart.isEmpty && fr.isEmpty) then
      let q : Rat := mkRat (digitsToNat (intPart ++ fr)) (10 ^ fr.length)
      some (if neg then -q else q)
    else none

/-- Model of Python `int(s)`: optional whitespace, optional sign, one or
more digits. -/
def parseIntStr (s : String) : Option Int :=
  let t := (pyStrip s).data
  let (neg, t) :=
    match t with
    | '-' :: r => (true, r)
    | '+' :: r => (false, r)
    | r => (false, r)
  if !t.isEmpty && t.all (fun c => c.isDigit) then
    some (if neg then -(digitsToNat t : Int) else (digitsToNat t : Int))
  else none

/-- Truncation of a rational toward zero, as Python `int(float)` does. -/
def ratTrunc (q : Rat) : Int := if q < 0 then -((-q).floor) else q.floor

/-- Python `float(value)`: `none` models the `TypeError`/`ValueError` that
the scripts catch. -/
def pyFloat : PyVal → Option Rat
  | .vNone => none
  | .vStr s => parseDecimal s
  | .vInt n => some (n : Rat)
  | .vFloat q => some q

/-- Python `int(value)`: `none` models the raised conversion error. -/
def pyInt : PyVal → Option Int
  | .vNone => none
  | .vStr s => parseIntStr s
  | .vInt n => some n
  | .vFloat q => some (ratTrunc q)

/-- Python `str(value)`.  The float case is a model (the scripts never
stringify a float). -/
def pyStr : PyVal → String
  | .vNone => "None"
  | .vStr s => s
  | .vInt n => toString n
  | .vFloat q => toString q

/-- The `replacements` table of `normalise_text` in
append_json_queue_to_excel.py, in dict insertion order.  (The literal
`"�"` in the source is the same character as `"�"`, so the dict holds
a single entry for it; applying the same single-character replacement a
second time is a no-op, so the list keeps both source lines.) -/
def NORMALISE_REPLACEMENTS : List (String × String) :=
  [("�", "'"), ("’", "'"), ("“", "\""), ("”", "\""), ("–", "-"),
   ("—", "-"), ("…", "..."), ("•", "-"), ("©", "(c)"), ("�", "'")]

/-- The replacement-and-strip core of `normalise_text` on an actual
string. -/
def normalise_str (s : String) : String :=
  pyStrip (applyTbl NORMALISE_REPLACEMENTS s)

/-- `normalise_text` from append_json_queue_to_excel.py. -/
def normalise_text : PyVal → String
  | .vNone => ""
  | v => normalise_str (pyStr v)

/-- `normalise_text(payload_lower.get(key))`: a missing key gives Python
`None`, which normalises to the empty string. -/
def normalise_textO (o : Option PyVal) : String :=
  normalise_text (o.getD .vNone)

/-- `truncate_for_excel` from append_json_queue_to_excel.py. -/
def truncate_for_excel (value : PyVal) (limit : Int) : String :=
  let text := normalise_text value
  if (text.length : Int) ≤ limit then text
  else if limit ≤ 3 then pySliceTo text limit
  else pyRstrip (pySliceTo text (limit - 3)) ++ "..."

/-- The `replacements` table of `normalize_text` in json_to_ebay_excel.py,
in dict insertion order (again `"�"` duplicates `"�"`). -/
def NORMALIZE_REPLACEMENTS_J : List (String × String) :=
  [("�", "'"), ("’", "'"), ("“", "\""), ("”", "\""), ("–", "-"),
   ("—", "-"), ("…", "..."), ("•", "-"), ("©", "(c)"),
   ("Ã©", "é"), ("Ã¼", "ü"), ("Ã¶", "ö"), ("Ã", "à"), ("�", "'")]

/-- The replacement-and-strip core of `normalize_text`
(json_to_ebay_excel.py) on an actual non-empty string. -/
def normalize_str_j (s : String) : String :=
  pyStrip (applyTbl NORMALIZE_REPLACEMENTS_J s)

/-- `normalize_text` from json_to_ebay_excel.py.  Its parameter is
annotated `str | None` but receives raw payload values; a falsy value
returns `""`, a truthy non-string raises `AttributeError` at
`text.replace`, modelled by `none`. -/
def normalize_text : PyVal → Option String
  | .vNone => some ""
  | .vStr s => some (if s == "" then "" else normalize_str_j s)
  | .vInt n => if n == 0 then some "" else none
  | .vFloat q => if q == 0 then some "" else none

/-- `normalize_text(payload_lower.get(key))` for the json variant. -/
def normalize_textO (o : Option PyVal) : Option String :=
  normalize_text (o.getD .vNone)

/-- Functional update of a row dict, `row[k] = v`. -/
def dUpdate (r : String → PyVal) (k : String) (v : PyVal) : String → PyVal :=
  fun h => if h = k then v else r h

/-- Dict lookup `d.get(k)` on an association list built by successive
insertions (a later binding for the same key wins, as in a Python dict). -/
def dictGet (l : List (String × PyVal)) (k : String) : Option PyVal :=
  (l.reverse.find? (fun kv => kv.1 == k)).map (fun kv => kv.2)

/-- `REQUIRED_HEADERS` from append_json_queue_to_excel.py. -/
def REQUIRED_HEADERS : List String :=
  ["*Action(SiteID=US|Country=US|Currency=USD|Version=1193)",
   "Custom label (SKU)", "Category ID", "Category name", "Title",
   "Relationship", "Relationship details", "Schedule Time", "P:ISBN",
   "P:EPID", "Start price", "Quantity", "Item photo URL", "VideoID",
   "Condition ID", "Description", "Format", "Duration", "Buy It Now price",
   "Best Offer Enabled", "Best Offer Auto Accept Price",
   "Minimum Best Offer Price", "Immediate pay required", "Location",
   "Shipping service 1 option", "Shipping service 1 cost",
   "Shipping service 1 priority", "Shipping service 2 option",
   "Shipping service 2 cost", "Shipping service 2 priority",
   "Max dispatch time", "Returns accepted option", "Returns within option",
   "Refund option", "Return shipping cost paid by", "Shipping profile name",
   "Return profile name", "Payment profile name", "C:Author", "C:Book Title",
   "C:Language", "C:Topic", "C:Publisher", "C:Format", "C:Genre",
   "C:Book Series", "C:Publication Year", "C:Original Language",
   "C:Features", "C:Type", "C:Country/Region of Manufacture", "C:Edition",
   "C:Narrative Type", "C:Signed", "C:Intended Audience", "C:Binding",
   "C:Subject", "C:Special Attributes", "Product Safety Pictograms",
   "Product Safety Statements", "Product Safety Component",
   "Regulatory Document Ids", "Manufacturer Name",
   "Manufacturer AddressLine1", "Manufacturer AddressLine2",
   "Manufacturer City", "Manufacturer Country", "Manufacturer PostalCode",
   "Manufacturer StateOrProvince", "Manufacturer Phone",
   "Manufacturer Email", "Manufacturer ContactURL", "Responsible Person 1",
   "Responsible Person 1 Type", "Responsible Person 1 AddressLine1",
   "Responsible Person 1 AddressLine2", "Responsible Person 1 City",
   "Responsible Person 1 Country", "Responsible Person 1 PostalCode",
   "Responsible Person 1 StateOrProvince", "Responsible Person 1 Phone",
   "Responsible Person 1 Email", "Responsible Person 1 ContactURL"]

/-- `DEFAULT_VALUES` from append_json_queue_to_excel.py (note `Quantity`
is the Python int `1`). -/
def DEFAULT_VALUES : List (String × PyVal) :=
  [("*Action(SiteID=US|Country=US|Currency=USD|Version=1193)", .vStr "Add"),
   ("Category ID", .vStr "261186"),
   ("Category name", .vStr "/Books & Magazines/Books"),
   ("Start price", .vStr "5.00"),
   ("Quantity", .vInt 1),
   ("Item photo URL",
    .vStr "https://keith-ebay-images.s3.us-east-2.amazonaws.com/IMG_4929.JPG"),
   ("Condition ID", .vStr "5000-Good"),
   ("Format", .vStr "FixedPrice"),
   ("Duration", .vStr "GTC"),
   ("Location", .vStr "Newfields, NH"),
   ("Shipping profile name", .vStr "USPS Media Mail"),
   ("Return profile name", .vStr "Returns allowed within 30 days"),
   ("Payment profile name", .vStr "Immediate payment managed via eBay"),
   ("C:Language", .vStr "English")]

/-- `FORCED_BLANK_HEADERS` from append_json_queue_to_excel.py (a Python
set; iteration order is irrelevant because every pass writes `""`). -/
def FORCED_BLANK_HEADERS : List String :=
  ["Max dispatch time", "Returns accepted option", "Returns within option",
   "Refund option", "Return shipping cost paid by"]

/-- `JSON_FIELD_MAP` from append_json_queue_to_excel.py. -/
def JSON_FIELD_MAP : List (String × String) :=
  [("title", "Title"), ("author", "C:Author"), ("edition", "C:Edition"),
   ("year", "C:Publication Year"), ("publisher", "C:Publisher")]

/-- `{str(key).lower(): value for key, value in payload.items()}`. -/
def lowerKeys (payload : List (String × PyVal)) : List (String × PyVal) :=
  payload.map (fun kv => (pyLowerStr kv.1, kv.2))

/-- `build_description` from append_json_queue_to_excel.py. -/
def build_description (payload_lower : List (String × PyVal)) : String :=
  let blurb := normalise_textO (dictGet payload_lower "blurb")
  let condition := normalise_textO (dictGet payload_lower "condition")
  let details := normalise_textO (dictGet payload_lower "details")
  let sections :=
    (if blurb ≠ "" then [blurb] else []) ++
    (if condition ≠ "" then ["Condition Notes:\n" ++ condition] else []) ++
    (if details ≠ "" then ["Collector Details:\n" ++ details] else [])
  String.intercalate "\n\n" sections

/-- The `row = {header: "" ...}; row.update(DEFAULT_VALUES ...)` steps of
`build_row` (append_json_queue_to_excel.py), with the module-level
`DEFAULT_VALUES` table passed explicitly so theorems can quantify over
the default table.  The row dict is modelled by a total function that is
`""` off the header set, matching `row.get(h, "")`; every source-level
`in row` test is a membership test against `header_order`, since the
dict's key set stays exactly `set(header_order)` throughout.  The
construction and update steps are split into one named stage per source
block; `build_row_core` chains them in source order. -/
def rowInitStage (header_order : List String)
    (defaults : List (String × PyVal)) : String → PyVal :=
  defaults.foldl
    (fun r kv => if header_order.contains kv.1 then dUpdate r kv.1 kv.2 else r)
    (fun _ => .vStr "")

/-- The `JSON_FIELD_MAP` loop of `build_row`. -/
def rowJsonStage (header_order : List String)
    (payload_lower : List (String × PyVal)) (r : String → PyVal) :
    String → PyVal :=
  JSON_FIELD_MAP.foldl
    (fun r m =>
      if header_order.contains m.2 then
        dUpdate r m.2 (.vStr (normalise_textO (dictGet payload_lower m.1)))
      else r) r

/-- `row["Title"] = row.get("Title", "")` (a no-op rewrite). -/
def rowTitleStage (header_order : List String) (r : String → PyVal) :
    String → PyVal :=
  if header_order.contains "Title" then dUpdate r "Title" (r "Title") else r

/-- `row["C:Book Title"] = truncate_for_excel(row.get("Title", ""), 50)`. -/
def rowBookTitleStage (header_order : List String) (r : String → PyVal) :
    String → PyVal :=
  if header_order.contains "C:Book Title" then
    dUpdate r "C:Book Title" (.vStr (truncate_for_excel (r "Title") 50))
  else r

/-- The `C:Author` block of `build_row` (`row.get("C:Author") or
payload_lower.get("author")`, truncated). -/
def rowAuthorStage (header_order : List String)
    (payload_lower : List (String × PyVal)) (r : String → PyVal) :
    String → PyVal :=
  if header_order.contains "C:Author" then
    let source_author :=
      if pyTruthy (r "C:Author") then r "C:Author"
      else (dictGet payload_lower "author").getD .vNone
    dUpdate r "C:Author" (.vStr (truncate_for_excel source_author 50))
  else r

/-- The `Description` block of `build_row`. -/
def rowDescStage (header_order : List String)
    (payload_lower : List (String × PyVal)) (r : String → PyVal) :
    String → PyVal :=
  if header_order.contains "Description" then
    dUpdate r "Description" (.vStr (build_description payload_lower))
  else r

/-- The final forced-blank loop of `build_row`. -/
def rowBlankStage (header_order : List String) (r : String → PyVal) :
    String → PyVal :=
  FORCED_BLANK_HEADERS.foldl
    (fun r h => if header_order.contains h then dUpdate r h (.vStr "") else r) r

/-- `build_row` assembled from its stages. -/
def build_row_core (defaults : List (String × PyVal))
    (header_order : List String) (payload : List (String × PyVal)) :
    String → PyVal :=
  let payload_lower := lowerKeys payload
  rowBlankStage header_order
    (rowDescStage header_order payload_lower
      (rowAuthorStage header_order payload_lower
        (rowBookTitleStage header_order
          (rowTitleStage header_order
            (rowJsonStage header_order payload_lower
              (rowInitStage header_order defaults))))))

/-- `build_row` from append_json_queue_to_excel.py. -/
def build_row (header_order : List String) (payload : List (String × PyVal)) :
    String → PyVal :=
  build_row_core DEFAULT_VALUES header_order payload

/-- An openpyxl worksheet: the stored grid of cells, 1-indexed through
`cellVal`.  A cell outside the stored area reads as `None`, exactly as
`sheet.cell(row, column).value` does; `rows.length` is `sheet.max_row`
for a non-empty sheet (a stored row of `vNone` cells models a row whose
cells were cleared rather than deleted, which openpyxl still counts in
`max_row`). -/
structure Sheet where
  rows : List (List PyVal)
deriving DecidableEq, Repr

/-- `sheet.cell(row=r, column=c).value` (1-indexed). -/
def cellVal (s : Sheet) (r c : Nat) : PyVal :=
  (s.rows.getD (r - 1) []).getD (c - 1) .vNone

/-- `sheet.max_row`: at least 1 even for an empty sheet. -/
def maxRow (s : Sheet) : Nat := max 1 s.rows.length

/-- `read_headers` from append_json_queue_to_excel.py: the first row with
non-string cells replaced by `""`. -/
def read_headers (s : Sheet) : List String :=
  (s.rows.getD 0 []).map (fun v => match v with | .vStr t => t | _ => "")

/-- The shared `while` loop of `find_insert_row` and `find_next_row`:
starting at `start`, move down while the cell in column `col` is not in
`(None, "")`, and return the first row index whose cell is empty. -/
def scanEmptyFrom (s : Sheet) (col start : Nat) : Nat :=
  if cellEmpty (cellVal s start col) then start
  else scanEmptyFrom s col (start + 1)
termination_by s.rows.length + 1 - start
decreasing_by
  rename_i h
  have hle : start ≤ s.rows.length := by
    by_contra hgt
    have hrow : s.rows.getD (start - 1) [] = [] :=
      List.getD_eq_default _ _ (by omega)
    have hcell : cellEmpty (cellVal s start col) = true := by
      unfold cellVal cellEmpty
      simp only [List.getD] at hrow ⊢
      rw [hrow]
      simp
    simp [hcell] at h
  omega

/-- `find_insert_row` from append_json_queue_to_excel.py: scan starting
one past `sheet.max_row`. -/
def find_insert_row (s : Sheet) (title_col : Nat) : Nat :=
  scanEmptyFrom s title_col (maxRow s + 1)

/-- `find_next_row` from json_to_ebay_excel.py: scan starting one past the
header row, in column `title_col_idx + 1`. -/
def find_next_row (s : Sheet) (title_col_idx start_row : Nat) : Nat :=
  scanEmptyFrom s (title_col_idx + 1) (start_row + 1)

/-- Cell-value coercion inside `append_row`
(append_json_queue_to_excel.py): empty values clear the cell, "Start
price" tries `float`, "Quantity" tries `int`, anything else is written
verbatim. -/
def coerceCell (header : String) (value : PyVal) : PyVal :=
  if cellEmpty value then .vNone
  else
    match (if header == "Start price" then pyFloat value else none) with
    | some q => .vFloat q
    | none =>
      match (if header == "Quantity" then pyInt value else none) with
      | some n => .vInt n
      | none => value

/-- Overwrite row `target` (1-indexed) of the grid with `cells`, creating
any missing rows above it as openpyxl does when cells are assigned. -/
def setRowCells (rows : List (List PyVal)) (target : Nat) (cells : List PyVal) :
    List (List PyVal) :=
  (rows ++ List.replicate (target - rows.length) []).set (target - 1) cells

/-- `append_row` from append_json_queue_to_excel.py.  `rv` is the row
dict as a total function (`row_values.get(header, "")`; `build_row`
returns `""` off its key set, so the defaulting is built in). -/
def append_row (sheet : Sheet) (headers : List String) (rv : String → PyVal) :
    Except String (Sheet × Nat) :=
  if headers.contains "Title" then
    let title_col_index := headers.indexOf "Title" + 1
    let target := find_insert_row sheet title_col_index
    let newCells := headers.map (fun h => coerceCell h (rv h))
    .ok (⟨setRowCells sheet.rows target newCells⟩, target)
  else .error "Workbook header is missing 'Title'."

/-- The number of occupied (non-empty) cells of column `col` at or below
row `start` in the stored grid. -/
def occCountFrom (s : Sheet) (col start : Nat) : Nat :=
  ((List.range' start (s.rows.length + 1 - start)).filter
    (fun r => !cellEmpty (cellVal s r col))).length

/-- `DEFAULTS` from json_to_ebay_excel.py (all values are strings there,
including `"Quantity": "1"`). -/
def DEFAULTS_J : List (String × PyVal) :=
  [("*Action(SiteID=US|Country=US|Currency=USD|Version=1193)", .vStr "Add"),
   ("Category ID", .vStr "29223"),
   ("Category name", .vStr "/Books & Magazines/Books"),
   ("Start price", .vStr ""),
   ("Quantity", .vStr "1"),
   ("Condition ID", .vStr "3000"),
   ("Format", .vStr "FixedPrice"),
   ("Duration", .vStr "GTC"),
   ("Location", .vStr "Los Angeles, CA"),
   ("Max dispatch time", .vStr "3"),
   ("Returns accepted option", .vStr "ReturnsAccepted"),
   ("Returns within option", .vStr "Days_30"),
   ("Refund option", .vStr "MoneyBack"),
   ("Return shipping cost paid by", .vStr "Buyer"),
   ("Shipping profile name", .vStr ""),
   ("Return profile name", .vStr ""),
   ("Payment profile name", .vStr ""),
   ("C:Language", .vStr "English")]

/-- `JSON_TO_COLUMNS` from json_to_ebay_excel.py; `none` marks the fields
folded into the description. -/
def JSON_TO_COLUMNS : List (String × Option String) :=
  [("title", some "Title"), ("author", some "C:Author"),
   ("edition", some "C:Edition"), ("year", some "C:Publication Year"),
   ("publisher", some "C:Publisher"), ("blurb", none), ("condition", none),
   ("details", none)]

/-- The CLI overrides of json_to_ebay_excel.py (`argparse` namespace
fields used by `prepare_row_values`; `none` is an unsupplied flag). -/
structure Args where
  start_price : Option String
  quantity : Option Int
  condition_id : Option String
  category_id : Option String
  category_name : Option String
  image_url : Option String
  location : Option String
  shipping_profile : Option String
  return_profile : Option String
  payment_profile : Option String

/-- The all-`none` namespace (no CLI overrides supplied). -/
def Args.none' : Args := ⟨none, none, none, none, none, none, none, none, none, none⟩

/-- `build_description` from json_to_ebay_excel.py; `none` models the
`AttributeError` `normalize_text` raises on a truthy non-string. -/
def build_description_j (payload_lower : List (String × PyVal)) : Option String := do
  let blurb ← normalize_textO (dictGet payload_lower "blurb")
  let condition ← normalize_textO (dictGet payload_lower "condition")
  let details ← normalize_textO (dictGet payload_lower "details")
  let sections :=
    (if blurb ≠ "" then [blurb] else []) ++
    (if condition ≠ "" then ["Condition Notes:\n" ++ condition] else []) ++
    (if details ≠ "" then ["Collector Details:\n" ++ details] else [])
  pure (String.intercalate "\n\n" sections)

/-- Step 1 of `prepare_row_values`: initialise every header to `""` and
apply `DEFAULTS` for columns present. -/
def defaultsStage (headers : List String) : String → PyVal :=
  DEFAULTS_J.foldl
    (fun v kv => if headers.contains kv.1 then dUpdate v kv.1 kv.2 else v)
    (fun _ => .vStr "")

/-- Step 2: adopt baseline values for the policy columns when the
baseline row is truthy and carries a truthy value. -/
def baselineStage (headers : List String)
    (baseline : Option (List (String × PyVal))) (v : String → PyVal) :
    String → PyVal :=
  match baseline with
  | none => v
  | some b =>
    if b.isEmpty then v
    else
      ["Shipping profile name", "Return profile name", "Payment profile name"].foldl
        (fun v k =>
          if headers.contains k && pyTruthy ((dictGet b k).getD .vNone) then
            dUpdate v k ((dictGet b k).getD .vNone)
          else v) v

/-- Step 3: the JSON field mapping (`values[column] = normalize_text(...)`
for each mapped column present in the header set). -/
def jsonStage (headers : List String) (payload_lower : List (String × PyVal))
    (v : String → PyVal) : Option (String → PyVal) :=
  JSON_TO_COLUMNS.foldlM
    (fun v jc =>
      match jc.2 with
      | some cn =>
        if headers.contains cn then do
          let t ← normalize_textO (dictGet payload_lower jc.1)
          pure (dUpdate v cn (.vStr t))
        else pure v
      | none => pure v) v

/-- Step 4: mirror Title into C:Book Title when both columns exist. -/
def mirrorStage (headers : List String) (v : String → PyVal) : String → PyVal :=
  if headers.contains "Title" && headers.contains "C:Book Title" then
    dUpdate v "C:Book Title" (v "Title")
  else v

/-- Step 5: write the description block into `*Description`, else
`Description`. -/
def descStage (headers : List String) (payload_lower : List (String × PyVal))
    (v : String → PyVal) : Option (String → PyVal) :=
  if headers.contains "*Description" then do
    let d ← build_description_j payload_lower
    pure (dUpdate v "*Description" (.vStr d))
  else if headers.contains "Description" then do
    let d ← build_description_j payload_lower
    pure (dUpdate v "Description" (.vStr d))
  else pure v

/-- `if cond: values[k] = x`. -/
def condUpdate (v : String → PyVal) (cond : Bool) (k : String) (x : PyVal) :
    String → PyVal :=
  if cond then dUpdate v k x else v

/-- Step 6: the CLI overrides, in source order. -/
def overrideStage (headers : List String) (args : Args) (v : String → PyVal) :
    String → PyVal :=
  let v := condUpdate v (args.start_price.isSome && headers.contains "Start price")
    "Start price" (.vStr (args.start_price.getD ""))
  let v := condUpdate v (args.quantity.isSome && headers.contains "Quantity")
    "Quantity" (.vStr (toString (args.quantity.getD 0)))
  let condCol := if headers.contains "Condition ID" then "Condition ID" else "*ConditionID"
  let v := condUpdate v (args.condition_id.isSome && headers.contains condCol)
    condCol (.vStr (args.condition_id.getD ""))
  let catCol := if headers.contains "Category ID" then "Category ID" else "*Category"
  let v := condUpdate v (args.category_id.isSome && headers.contains catCol)
    catCol (.vStr (args.category_id.getD ""))
  let v := condUpdate v
    (!(args.category_name.getD "" == "") && headers.contains "Category name")
    "Category name" (.vStr (args.category_name.getD ""))
  let imgTruthy := !(args.image_url.getD "" == "")
  let v := condUpdate v (imgTruthy && headers.contains "Item photo URL")
    "Item photo URL" (.vStr (args.image_url.getD ""))
  let v := condUpdate v
    (imgTruthy && !headers.contains "Item photo URL" && headers.contains "PicURL")
    "PicURL" (.vStr (args.image_url.getD ""))
  let v := condUpdate v
    (!(args.location.getD "" == "") && headers.contains "Location")
    "Location" (.vStr (args.location.getD ""))
  let v := condUpdate v
    (!(args.shipping_profile.getD "" == "") && headers.contains "Shipping profile name")
    "Shipping profile name" (.vStr (args.shipping_profile.getD ""))
  let v := condUpdate v
    (!(args.return_profile.getD "" == "") && headers.contains "Return profile name")
    "Return profile name" (.vStr (args.return_profile.getD ""))
  condUpdate v
    (!(args.payment_profile.getD "" == "") && headers.contains "Payment profile name")
    "Payment profile name" (.vStr (args.payment_profile.getD ""))

/-- Step 7: the condition-text fallback writing `*ConditionID`. -/
def condFallbackStage (headers : List String) (payload : List (String × PyVal))
    (args : Args) (v : String → PyVal) : String → PyVal :=
  condUpdate v
    (pyTruthy ((dictGet payload "condition").getD .vNone) &&
      !headers.contains "Condition ID" && headers.contains "*ConditionID")
    "*ConditionID"
    (.vStr (match args.condition_id with
            | some c => if c == "" then "" else c
            | none => ""))

/-- `prepare_row_values` from json_to_ebay_excel.py, as the composition of
its seven source steps.  (`DEFAULTS.get("*ConditionID", "")` in the
fallback is `""` because `*ConditionID` is not in `DEFAULTS`.) -/
def prepare_row_values (headers : List String)
    (payload payload_lower : List (String × PyVal)) (args : Args)
    (baseline : Option (List (String × PyVal))) : Option (String → PyVal) := do
  let v3 ← jsonStage headers payload_lower
    (baselineStage headers baseline (defaultsStage headers))
  let v5 ← descStage headers payload_lower (mirrorStage headers v3)
  pure (condFallbackStage headers payload args (overrideStage headers args v5))

/-- Cell-value coercion inside `apply_row` (json_to_ebay_excel.py): only
the literal empty string clears the cell, any header ending in "price"
(case-insensitively) tries `float`, "quantity" tries `int`. -/
def coerceCellJ (header : String) (value : PyVal) : PyVal :=
  if isEmptyStr value then .vNone
  else
    match (if pyEndsWith (pyLowerStr header) "price" && !(value == .vStr "") then
             pyFloat value
           else none) with
    | some q => .vFloat q
    | none =>
      match (if pyLowerStr header == "quantity" then pyInt value else none) with
      | some n => .vInt n
      | none => value

/-- Write a single cell, creating rows/cells above and left as openpyxl
does on assignment. -/
def setCell (s : Sheet) (r c : Nat) (v : PyVal) : Sheet :=
  let rowsP := s.rows ++ List.replicate (r - s.rows.length) []
  let row := rowsP.getD (r - 1) []
  let rowP := row ++ List.replicate (c - row.length) .vNone
  ⟨rowsP.set (r - 1) (rowP.set (c - 1) v)⟩

/-- The column loop of `apply_row`, carrying the 1-based column index;
empty header names are skipped. -/
def applyCols (r : Nat) (values : String → PyVal) :
    Sheet → Nat → List String → Sheet
  | s, _, [] => s
  | s, col, h :: rest =>
    applyCols r values
      (if h == "" then s else setCell s r col (coerceCellJ h (values h)))
      (col + 1) rest

/-- `apply_row` from json_to_ebay_excel.py. -/
def apply_row (sheet : Sheet) (row_index : Nat) (headers : List String)
    (values : String → PyVal) : Sheet :=
  applyCols row_index values sheet 1 headers

/-- A queued JSON file: either text that fails to parse, or a parsed
top-level value, which is an object only in the first case. -/
inductive JsonFile where
  | unparseable : JsonFile
  | object (fields : List (String × PyVal)) : JsonFile
  | array (items : List PyVal) : JsonFile
  | scalar (v : PyVal) : JsonFile
deriving Repr

/-- `load_json` from append_json_queue_to_excel.py: a parse failure
raises `json.JSONDecodeError`, a non-object top level raises
`ValueError("JSON payload must be an object")`. -/
def load_json : JsonFile → Except String (List (String × PyVal))
  | .unparseable => .error "JSONDecodeError"
  | .object fields => .ok fields
  | .array _ => .error "JSON payload must be an object"
  | .scalar _ => .error "JSON payload must be an object"

/-- A workbook: named sheets in order. -/
structure Workbook where
  sheets : List (String × Sheet)
deriving Repr

/-- `wb[name]` after an `in wb.sheetnames` check. -/
def lookupSheet (wb : Workbook) (name : String) : Option Sheet :=
  (wb.sheets.find? (fun p => p.1 == name)).map (fun p => p.2)

/-- The in-memory workbook after a sheet has been mutated (what
`wb.save` persists). -/
def updateSheet (wb : Workbook) (name : String) (s : Sheet) : Workbook :=
  ⟨wb.sheets.map (fun p => if p.1 == name then (p.1, s) else p)⟩

/-- `[header for header in REQUIRED_HEADERS if header not in headers]`. -/
def missingHeaders (headers : List String) : List String :=
  REQUIRED_HEADERS.filter (fun h => !headers.contains h)

/-- The fatal errors `process_queue` can raise before or during the
batch. -/
inductive RunError where
  | workbookMissing : RunError
  | noListingsSheet : RunError
  | missingColumns (firstFew : List String) : RunError
  | appendFailed (msg : String) : RunError
deriving DecidableEq, Repr

/-- What a completed run changed on disk: the workbook contents written
by the single `wb.save` (`none` when no save happened), how many times it
saved, how many rows it appended, how many items it skipped, and which
input files were moved to `processed/`. -/
structure RunOutcome where
  savedWorkbook : Option Workbook
  saveCount : Nat
  appended : Nat
  skipped : Nat
  moved : List String
deriving Repr

/-- The per-file loop state of `process_queue`. -/
structure LoopState where
  sheet : Sheet
  processed : List String
  skipped : Nat

/-- `process_queue` from append_json_queue_to_excel.py over a queue of
(name, contents) files.  Mutations of the outside world (the saved
workbook, moved inputs) appear only in a returned `RunOutcome`; a raised
error therefore leaves workbook and inputs untouched, as in the source,
where every raise precedes the save. -/
def process_queue (wbFile : Option Workbook)
    (files : List (String × JsonFile)) : Except RunError RunOutcome :=
  if files.isEmpty then .ok ⟨none, 0, 0, 0, []⟩
  else
    match wbFile with
    | none => .error .workbookMissing
    | some wb =>
      match lookupSheet wb "Listings" with
      | none => .error .noListingsSheet
      | some sheet =>
        let headers := read_headers sheet
        let missing := missingHeaders headers
        if missing.isEmpty then
          let step : LoopState → String × JsonFile → Except RunError LoopState :=
            fun st file =>
              match load_json file.2 with
              | .error _ => Except.ok ⟨st.sheet, st.processed, st.skipped + 1⟩
              | .ok payload =>
                match append_row st.sheet headers (build_row headers payload) with
                | .error e => .error (.appendFailed e)
                | .ok (s2, _) =>
                  Except.ok ⟨s2, st.processed ++ [file.1], st.skipped⟩
          let run : Except RunError LoopState := files.foldlM step ⟨sheet, [], 0⟩
          run.map
            (fun st =>
              if st.processed.isEmpty then ⟨none, 0, 0, st.skipped, []⟩
              else
                ⟨some (updateSheet wb "Listings" st.sheet), 1,
                 st.processed.length, st.skipped, st.processed⟩)
        else .error (.missingColumns (missing.take 5))

/-- The shape the occupancy-scan claim quantifies over: below the header
row there are exactly `n` occupied rows (non-empty Title cell), and every
row below those is fully empty. -/
def claimShape (s : Sheet) (titleCol headerRow n : Nat) : Prop :=
  (∀ r, headerRow < r → r ≤ headerRow + n →
    cellEmpty (cellVal s r titleCol) = false) ∧
  (∀ r c, headerRow + n < r → cellEmpty (cellVal s r c) = true)

/-- A sheet whose header row is followed by one occupied row and one
stored fully-empty row (its cells cleared, not deleted, so openpyxl's
`max_row` still counts it). -/
def exSheetC1 : Sheet := ⟨[[.vStr "Title"], [.vStr "Book A"], [.vNone]]⟩

/-- A sheet with a header row and one occupied row and no stored rows
beyond it. -/
def exSheetOcc : Sheet := ⟨[[.vStr "Title"], [.vStr "Book A"]]⟩

/-- A two-column sheet holding only a header row. -/
def exSheetC5 : Sheet := ⟨[[.vStr "Title", .vStr "Start price"]]⟩

/-- Its header list. -/
def headersC5 : List String := ["Title", "Start price"]

/-- A row dict whose Start price is the numeric string "5.00". -/
def rvNumeric : String → PyVal :=
  fun h => if h = "Start price" then .vStr "5.00" else .vStr "X"

/-- A row dict whose Start price is the non-numeric string
"call for price". -/
def rvNonNumeric : String → PyVal :=
  fun h => if h = "Start price" then .vStr "call for price" else .vStr "X"

/-- A workbook whose Listings sheet holds exactly the required header
row. -/
def exWorkbook : Workbook :=
  ⟨[("Listings", ⟨[REQUIRED_HEADERS.map (fun h => .vStr h)]⟩)]⟩

/-- A workbook whose Listings sheet has only a "Title" header, so almost
every required header is missing. -/
def exWorkbookPoor : Workbook := ⟨[("Listings", ⟨[[.vStr "Title"]]⟩)]⟩

/-! ## Theorems -/

theorem strData_mk (l : List Char) : (String.mk l).data = l := rfl

theorem strLength_data (s : String) : s.length = s.data.length := rfl

theorem strAppend_data (s t : String) : (s ++ t).data = s.data ++ t.data := rfl

theorem rstripL_length_le (l : List Char) : (rstripL l).length ≤ l.length := by
  induction l with
  | nil => simp [rstripL]
  | cons c rest ih =>
    simp only [rstripL]
    split
    · split <;> simp
    · rename_i hr
      simp only [List.length_cons]
      omega

theorem pySliceTo_length_le (s : String) (k : Int) (hk : 0 ≤ k) :
    ((pySliceTo s k).length : Int) ≤ k := by
  have hnk : ¬ k < 0 := by omega
  simp only [pySliceTo, strLength_data, strData_mk, List.length_take, hnk,
    if_false]
  omega

theorem pySliceTo_of_length_le (s : String) (k : Int)
    (h : (s.length : Int) ≤ k) : pySliceTo s k = s := by
  have hk : ¬ k < 0 := by
    have : (0 : Int) ≤ (s.length : Int) := by positivity
    omega
  simp only [pySliceTo, hk, if_false]
  have htake : s.data.take k.toNat = s.data := by
    apply List.take_of_length_le
    rw [strLength_data] at h
    omega
  rw [htake]

theorem truncate_length_le (text : String) (limit : Int) (h : 0 ≤ limit) :
    ((truncate text limit).length : Int) ≤ limit := by
  unfold truncate
  by_cases h1 : (text.length : Int) ≤ limit
  · simp only [if_pos h1]
    exact h1
  · simp only [h1, if_false]
    by_cases h2 : limit ≤ 3
    · simp only [h2, if_true]
      exact pySliceTo_length_le text limit h
    · simp only [h2, if_false]
      have hs : ((pySliceTo text (limit - 3)).length : Int) ≤ limit - 3 :=
        pySliceTo_length_le text (limit - 3) (by omega)
      have hr : (pyRstrip (pySliceTo text (limit - 3))).length ≤
          (pySliceTo text (limit - 3)).length := by
        simp only [pyRstrip, strLength_data, strData_mk]
        exact rstripL_length_le _
      have hdots : ("..." : String).length = 3 := rfl
      have hlen : (pyRstrip (pySliceTo text (limit - 3)) ++ "...").length =
          (pyRstrip (pySliceTo text (limit - 3))).length + 3 := by
        rw [String.length_append, hdots]
      rw [hlen]
      push_cast
      omega

theorem truncate_idem (text : String) (limit : Int) (h : 0 ≤ limit) :
    truncate (truncate text limit) limit = truncate text limit := by
  have hl := truncate_length_le text limit h
  conv_lhs => rw [truncate]
  simp [hl]

theorem truncate_of_low (text : String) (limit : Int) (h : limit ≤ 3) :
    truncate text limit = pySliceTo text limit := by
  unfold truncate
  by_cases h1 : (text.length : Int) ≤ limit
  · rw [if_pos h1, pySliceTo_of_length_le text limit h1]
  · rw [if_neg h1, if_pos h]

theorem truncate_of_high (text : String) (limit : Int) (h3 : 3 < limit)
    (hlen : limit < (text.length : Int)) :
    truncate text limit = pyRstrip (pySliceTo text (limit - 3)) ++ "..." := by
  unfold truncate
  rw [if_neg (by omega), if_neg (by omega)]

/-- C3 counterexample: at `limit = -1` (a legal Python `int`), Python
slicing counts from the end, so `truncate "ab" (-1) = "a"`, whose length
exceeds the limit, and a second truncation shrinks it further to `""`:
both the length law and idempotence of the claim fail. -/
theorem truncate_law_counterexample :
    ¬(((truncate "ab" (-1)).length : Int) ≤ -1) ∧
    truncate (truncate "ab" (-1)) (-1) ≠ truncate "ab" (-1) := by
  constructor
  · decide
  · decide

/-- C3 amended: for every text and every limit ≥ 0 the result length is
at most the limit and truncation is idempotent; the two exact-shape laws
(`text[:limit-3].rstrip() + "..."` above the limit for `limit > 3`, plain
`text[:limit]` for `limit ≤ 3`) hold for every limit. -/
theorem truncate_law_amended (text : String) (limit : Int) :
    (0 ≤ limit → ((truncate text limit).length : Int) ≤ limit) ∧
    (3 < limit → limit < (text.length : Int) →
      truncate text limit = pyRstrip (pySliceTo text (limit - 3)) ++ "...") ∧
    (limit ≤ 3 → truncate text limit = pySliceTo text limit) ∧
    (0 ≤ limit → truncate (truncate text limit) limit = truncate text limit) :=
  ⟨truncate_length_le text limit,
   fun h3 hlen => truncate_of_high text limit h3 hlen,
   truncate_of_low text limit,
   truncate_idem text limit⟩

/-- C3 witness: the amended truncation law evaluated at a concrete input
with a positive limit. -/
theorem truncate_law_witness :
    (0 ≤ (7 : Int) ∧ 3 < (7 : Int) ∧ (7 : Int) < (("hello world, hi" : String).length : Int)) ∧
    ((truncate "hello world, hi" 7).length : Int) ≤ 7 ∧
    truncate "hello world, hi" 7 = pyRstrip (pySliceTo "hello world, hi" 4) ++ "..." ∧
    truncate (truncate "hello world, hi" 7) 7 = truncate "hello world, hi" 7 := by
  refine ⟨by decide, ?_, ?_, ?_⟩
  · exact (truncate_law_amended "hello world, hi" 7).1 (by decide)
  · exact (truncate_law_amended "hello world, hi" 7).2.1 (by decide) (by decide)
  · exact (truncate_law_amended "hello world, hi" 7).2.2.2 (by decide)

theorem mem_replAux {b : Char} {bs new : List Char} :
    ∀ (s : List Char) (k : Nat) {c : Char},
      c ∈ replAux b bs new k s → c ∈ new ∨ c ∈ s := by
  intro s
  induction s with
  | nil => intro k c h; simp [replAux] at h
  | cons d rest ih =>
    intro k c h
    cases k with
    | zero =>
      rw [replAux] at h
      by_cases hc : (b == d && bs.isPrefixOf rest) = true
      · rw [if_pos hc] at h
        rcases List.mem_append.mp h with hn | hr
        · exact Or.inl hn
        · rcases ih bs.length hr with hn | hr2
          · exact Or.inl hn
          · exact Or.inr (List.mem_cons_of_mem d hr2)
      · rw [if_neg hc] at h
        rcases List.mem_cons.mp h with hd | hr
        · exact Or.inr (hd ▸ List.mem_cons_self d rest)
        · rcases ih 0 hr with hn | hr2
          · exact Or.inl hn
          · exact Or.inr (List.mem_cons_of_mem d hr2)
    | succ k =>
      rw [replAux] at h
      rcases ih k h with hn | hr
      · exact Or.inl hn
      · exact Or.inr (List.mem_cons_of_mem d hr)

theorem replAux_id {b : Char} {bs new : List Char} :
    ∀ s : List Char, b ∉ s → replAux b bs new 0 s = s := by
  intro s
  induction s with
  | nil => intro; rfl
  | cons d rest ih =>
    intro hb
    have hbd : ¬ b = d := fun h => hb (h ▸ List.mem_cons_self d rest)
    have hcond : (b == d && bs.isPrefixOf rest) = false := by
      simp [hbd]
    rw [replAux, hcond]
    simp only [Bool.false_eq_true, if_false]
    rw [ih (fun h => hb (List.mem_cons_of_mem d h))]

theorem not_mem_replAux_self {b : Char} {new : List Char} (hb : b ∉ new) :
    ∀ s : List Char, b ∉ replAux b [] new 0 s := by
  intro s
  induction s with
  | nil => simp [replAux]
  | cons d rest ih =>
    rw [replAux]
    by_cases hc : (b == d && List.isPrefixOf [] rest) = true
    · rw [if_pos hc]
      intro hmem
      rcases List.mem_append.mp hmem with hn | hr
      · exact hb hn
      · exact ih (by simpa using hr)
    · rw [if_neg hc]
      intro hmem
      rcases List.mem_cons.mp hmem with hd | hr
      · simp [List.isPrefixOf] at hc
        exact hc hd
      · exact ih hr

theorem mem_replaceCore {old new s : List Char} {c : Char}
    (h : c ∈ replaceCore old new s) : c ∈ new ∨ c ∈ s := by
  cases old with
  | nil =>
    simp only [replaceCore] at h
    rcases List.mem_append.mp h with hn | hr
    · exact Or.inl hn
    · rw [List.mem_flatten] at hr
      rcases hr with ⟨l, hl, hcl⟩
      rw [List.mem_map] at hl
      rcases hl with ⟨d, hd, rfl⟩
      rcases List.mem_cons.mp hcl with h1 | h2
      · exact Or.inr (h1 ▸ hd)
      · exact Or.inl h2
  | cons b bs => exact mem_replAux s 0 h

theorem replaceCore_id {b : Char} {bs new s : List Char} (h : b ∉ s) :
    replaceCore (b :: bs) new s = s :=
  replAux_id s h

theorem not_mem_replaceCore_self {b : Char} {new s : List Char}
    (hb : b ∉ new) : b ∉ replaceCore [b] new s :=
  not_mem_replAux_self hb s

theorem pyReplace_data (s old new : String) :
    (pyReplace s old new).data = replaceCore old.data new.data s.data := rfl

theorem applyTbl_nil (s : String) : applyTbl [] s = s := rfl

theorem applyTbl_cons (p : String × String) (rest : List (String × String))
    (s : String) : applyTbl (p :: rest) s = applyTbl rest (pyReplace s p.1 p.2) := rfl

/-- A character absent from a string and from every replacement stays
absent through a whole replacement table. -/
theorem applyTbl_not_mem_preserve {h : Char} :
    ∀ (tbl : List (String × String)) (s : String),
      (∀ p ∈ tbl, h ∉ p.2.data) → h ∉ s.data → h ∉ (applyTbl tbl s).data := by
  intro tbl
  induction tbl with
  | nil => intro s _ hs; exact hs
  | cons p rest ih =>
    intro s hnews hs
    rw [applyTbl_cons]
    apply ih
    · intro q hq; exact hnews q (List.mem_cons_of_mem p hq)
    · rw [pyReplace_data]
      intro hmem
      rcases mem_replaceCore hmem with hn | hsrc
      · exact hnews p (List.mem_cons_self p rest) hn
      · exact hs hsrc

/-- If a table contains the single-character pattern `[h]` and no
replacement reintroduces `h`, then `h` is absent from the table's
output. -/
theorem applyTbl_not_mem {h : Char} :
    ∀ (tbl : List (String × String)),
      (∀ p ∈ tbl, h ∉ p.2.data) → (∃ p ∈ tbl, p.1.data = [h]) →
      ∀ s : String, h ∉ (applyTbl tbl s).data := by
  intro tbl
  induction tbl with
  | nil => rintro _ ⟨p, hp, _⟩ _; exact absurd hp (List.not_mem_nil p)
  | cons p rest ih =>
    rintro hnews ⟨q, hq, hq1⟩ s
    rcases List.mem_cons.mp hq with rfl | hqr
    · rw [applyTbl_cons]
      apply applyTbl_not_mem_preserve rest
      · intro r hr; exact hnews r (List.mem_cons_of_mem q hr)
      · rw [pyReplace_data, hq1]
        exact not_mem_replaceCore_self (hnews q (List.mem_cons_self q rest))
    · rw [applyTbl_cons]
      exact ih (fun r hr => hnews r (List.mem_cons_of_mem p hr)) ⟨q, hqr, hq1⟩ _

/-- If every pattern of the table starts with a character absent from
`s`, the table leaves `s` unchanged. -/
theorem applyTbl_id :
    ∀ (tbl : List (String × String)) (s : String),
      (∀ p ∈ tbl, ∃ b bs, p.1.data = b :: bs ∧ b ∉ s.data) →
      applyTbl tbl s = s := by
  intro tbl
  induction tbl with
  | nil => intro s _; rfl
  | cons p rest ih =>
    intro s hheads
    rcases hheads p (List.mem_cons_self p rest) with ⟨b, bs, hp1, hb⟩
    have hstep : pyReplace s p.1 p.2 = s := by
      have : (pyReplace s p.1 p.2).data = s.data := by
        rw [pyReplace_data, hp1]
        exact replaceCore_id hb
      exact String.ext this
    rw [applyTbl_cons, hstep]
    exact ih s (fun q hq => hheads q (List.mem_cons_of_mem p hq))

theorem mem_rstripL {c : Char} : ∀ l : List Char, c ∈ rstripL l → c ∈ l := by
  intro l
  induction l with
  | nil => intro h; exact h
  | cons d rest ih =>
    intro h
    rw [rstripL] at h
    rcases hrest : rstripL rest with _ | ⟨x, xs⟩
    · rw [hrest] at h
      by_cases hd : isPySpace d
      · rw [if_pos hd] at h; exact absurd h (List.not_mem_nil c)
      · rw [if_neg hd] at h
        rcases List.mem_cons.mp h with rfl | h2
        · exact List.mem_cons_self c rest
        · exact absurd h2 (List.not_mem_nil c)
    · rw [hrest] at h
      rcases List.mem_cons.mp h with rfl | h2
      · exact List.mem_cons_self c rest
      · exact List.mem_cons_of_mem d (ih (hrest ▸ h2))

theorem mem_lstripL {c : Char} (l : List Char) (h : c ∈ lstripL l) : c ∈ l :=
  List.Sublist.subset (List.dropWhile_sublist isPySpace) h

theorem mem_pyStrip {c : Char} (s : String) (h : c ∈ (pyStrip s).data) :
    c ∈ s.data :=
  mem_lstripL s.data (mem_rstripL _ h)

theorem lstripL_idem : ∀ l : List Char, lstripL (lstripL l) = lstripL l := by
  intro l
  induction l with
  | nil => rfl
  | cons c rest ih =>
    by_cases hc : isPySpace c
    · simp only [lstripL, List.dropWhile_cons, hc, if_true]
      exact ih
    · simp [lstripL, List.dropWhile_cons, hc]

theorem rstripL_idem : ∀ l : List Char, rstripL (rstripL l) = rstripL l := by
  intro l
  induction l with
  | nil => rfl
  | cons c rest ih =>
    rcases h : rstripL rest with _ | ⟨x, xs⟩
    · rw [rstripL, h]
      by_cases hc : isPySpace c
      · rw [if_pos hc]; rfl
      · rw [if_neg hc, rstripL]
        simp [rstripL, hc]
    · rw [rstripL, h]
      have h2 : rstripL (x :: xs) = x :: xs := by
        conv_lhs => rw [← h]
        rw [ih, h]
      rw [rstripL, h2]

theorem lstripL_fixed_rstripL :
    ∀ l : List Char, lstripL l = l → lstripL (rstripL l) = rstripL l := by
  intro l
  induction l with
  | nil => intro _; rfl
  | cons c rest ih =>
    intro hfix
    have hc : ¬ isPySpace c = true := by
      intro hc
      have : lstripL (c :: rest) = lstripL rest := by
        simp [lstripL, List.dropWhile_cons, hc]
      rw [hfix] at this
      have hlen : (lstripL rest).length ≤ rest.length :=
        List.Sublist.length_le (List.dropWhile_sublist isPySpace)
      rw [← this] at hlen
      simp at hlen
    rcases h : rstripL rest with _ | ⟨x, xs⟩
    · rw [rstripL, h, if_neg hc]
      simp [lstripL, List.dropWhile_cons, hc]
    · rw [rstripL, h]
      simp [lstripL, List.dropWhile_cons, hc]

theorem pyStrip_data (s : String) :
    (pyStrip s).data = rstripL (lstripL s.data) := rfl

theorem pyStrip_idem (s : String) : pyStrip (pyStrip s) = pyStrip s := by
  apply String.ext
  rw [pyStrip_data, pyStrip_data]
  have h1 : lstripL (rstripL (lstripL s.data)) = rstripL (lstripL s.data) :=
    lstripL_fixed_rstripL (lstripL s.data) (lstripL_idem s.data)
  rw [h1, rstripL_idem]

theorem normalise_heads_absent (s : String) {c : Char}
    (hc : c ∈ ['�', '’', '“', '”', '–', '—', '…', '•', '©']) :
    c ∉ (applyTbl NORMALISE_REPLACEMENTS s).data := by
  have hnews : ∀ p ∈ NORMALISE_REPLACEMENTS, c ∉ p.2.data := by
    fin_cases hc <;> decide
  have hkill : ∃ p ∈ NORMALISE_REPLACEMENTS, p.1.data = [c] := by
    fin_cases hc <;> decide
  exact applyTbl_not_mem NORMALISE_REPLACEMENTS hnews hkill s

theorem normalise_str_idem (s : String) :
    normalise_str (normalise_str s) = normalise_str s := by
  unfold normalise_str
  have habs : ∀ c ∈ ['�', '’', '“', '”', '–', '—', '…', '•', '©'],
      c ∉ (pyStrip (applyTbl NORMALISE_REPLACEMENTS s)).data :=
    fun c hc hmem =>
      normalise_heads_absent s hc (mem_pyStrip _ hmem)
  have hid : applyTbl NORMALISE_REPLACEMENTS
      (pyStrip (applyTbl NORMALISE_REPLACEMENTS s)) =
      pyStrip (applyTbl NORMALISE_REPLACEMENTS s) := by
    apply applyTbl_id
    intro p hp
    fin_cases hp <;>
      exact ⟨_, _, rfl, habs _ (by decide)⟩
  rw [hid, pyStrip_idem]

theorem normalize_heads_absent_j (s : String) {c : Char}
    (hc : c ∈ ['�', '’', '“', '”', '–', '—', '…', '•', '©', 'Ã']) :
    c ∉ (applyTbl NORMALIZE_REPLACEMENTS_J s).data := by
  have hnews : ∀ p ∈ NORMALIZE_REPLACEMENTS_J, c ∉ p.2.data := by
    fin_cases hc <;> decide
  have hkill : ∃ p ∈ NORMALIZE_REPLACEMENTS_J, p.1.data = [c] := by
    fin_cases hc <;> decide
  exact applyTbl_not_mem NORMALIZE_REPLACEMENTS_J hnews hkill s

theorem normalize_str_j_idem (s : String) :
    normalize_str_j (normalize_str_j s) = normalize_str_j s := by
  unfold normalize_str_j
  have habs : ∀ c ∈ ['�', '’', '“', '”', '–', '—', '…', '•', '©', 'Ã'],
      c ∉ (pyStrip (applyTbl NORMALIZE_REPLACEMENTS_J s)).data :=
    fun c hc hmem =>
      normalize_heads_absent_j s hc (mem_pyStrip _ hmem)
  have hid : applyTbl NORMALIZE_REPLACEMENTS_J
      (pyStrip (applyTbl NORMALIZE_REPLACEMENTS_J s)) =
      pyStrip (applyTbl NORMALIZE_REPLACEMENTS_J s) := by
    apply applyTbl_id
    intro p hp
    fin_cases hp <;>
      exact ⟨_, _, rfl, habs _ (by decide)⟩
  rw [hid, pyStrip_idem]

/-- C9: text normalisation is idempotent, in both variants: repeating
`normalise_text` (append_json_queue_to_excel.py) on its own string output
changes nothing, and whenever `normalize_text` (json_to_ebay_excel.py)
produces a string, running it again on that string reproduces it. -/
theorem normalise_text_idempotent (s : String) :
    normalise_text (.vStr (normalise_text (.vStr s))) = normalise_text (.vStr s) ∧
    ∀ t, normalize_text (.vStr s) = some t → normalize_text (.vStr t) = some t := by
  constructor
  · show normalise_str (normalise_str s) = normalise_str s
    exact normalise_str_idem s
  · intro t ht
    simp only [normalize_text, Option.some.injEq] at ht
    by_cases hs : s == ""
    · rw [if_pos hs] at ht
      subst ht
      rfl
    · rw [if_neg (by simpa using hs)] at ht
      subst ht
      simp only [normalize_text, Option.some.injEq]
      by_cases hz : normalize_str_j s == ""
      · rw [if_pos hz]
        exact (eq_of_beq hz).symm
      · rw [if_neg (by simpa using hz)]
        exact normalize_str_j_idem s

/-- C9 witness: idempotence applied to a concrete string containing
characters from both replacement tables. -/
theorem normalise_text_idempotent_witness :
    normalize_text (.vStr " a’b— ") = some "a'b-" ∧
    normalize_text (.vStr "a'b-") = some "a'b-" := by
  refine ⟨by decide, ?_⟩
  exact (normalise_text_idempotent " a’b— ").2 "a'b-" (by decide)

theorem dUpdate_same (r : String → PyVal) (k : String) (v : PyVal) :
    dUpdate r k v k = v := by
  simp [dUpdate]

theorem dUpdate_ne (r : String → PyVal) (k : String) (v : PyVal) {h : String}
    (hne : h ≠ k) : dUpdate r k v h = r h := by
  simp [dUpdate, hne]

theorem blankFold_preserve (headers : List String) (h : String) :
    ∀ (l : List String) (r : String → PyVal), r h = .vStr "" →
      (l.foldl (fun r k => if headers.contains k then dUpdate r k (.vStr "") else r) r) h =
        .vStr "" := by
  intro l
  induction l with
  | nil => intro r hr; exact hr
  | cons k rest ih =>
    intro r hr
    simp only [List.foldl_cons]
    apply ih
    by_cases hk : headers.contains k
    · rw [if_pos hk]
      by_cases hhk : h = k
      · rw [hhk, dUpdate_same]
      · rw [dUpdate_ne _ _ _ hhk]; exact hr
    · rw [if_neg hk]; exact hr

theorem blankFold_sets (headers : List String) (h : String)
    (hc : headers.contains h = true) :
    ∀ (l : List String) (r : String → PyVal), h ∈ l →
      (l.foldl (fun r k => if headers.contains k then dUpdate r k (.vStr "") else r) r) h =
        .vStr "" := by
  intro l
  induction l with
  | nil => intro r hl; exact absurd hl (List.not_mem_nil h)
  | cons k rest ih =>
    intro r hl
    simp only [List.foldl_cons]
    rcases List.mem_cons.mp hl with rfl | hrest
    · apply blankFold_preserve
      rw [if_pos hc, dUpdate_same]
    · exact ih _ hrest

/-- C2: for every payload, every default table and every schema, every
forced-blank column present in the schema comes out of `build_row` as the
empty string; the final forced-blank pass cannot be bypassed (the
variant's parameter space has no override input, so no override can leave
a value either). -/
theorem forced_blank_precedence (defaults : List (String × PyVal))
    (header_order : List String) (payload : List (String × PyVal))
    (h : String) (hf : h ∈ FORCED_BLANK_HEADERS) (hh : h ∈ header_order) :
    build_row_core defaults header_order payload h = .vStr "" := by
  unfold build_row_core rowBlankStage
  exact blankFold_sets header_order h (List.elem_eq_true_of_mem hh)
    FORCED_BLANK_HEADERS _ hf

/-- C2 witness: the forced-blank rule evaluated on a concrete schema and
payload that try to force a non-empty "Max dispatch time". -/
theorem forced_blank_precedence_witness :
    ("Max dispatch time" ∈ FORCED_BLANK_HEADERS ∧
     "Max dispatch time" ∈ ["Title", "Max dispatch time"]) ∧
    build_row_core [("Max dispatch time", .vStr "5")]
      ["Title", "Max dispatch time"]
      [("max dispatch time", .vStr "7")] "Max dispatch time" = .vStr "" :=
  ⟨⟨by decide, by decide⟩,
   forced_blank_precedence [("Max dispatch time", .vStr "5")]
     ["Title", "Max dispatch time"] [("max dispatch time", .vStr "7")]
     "Max dispatch time" (by decide) (by decide)⟩

theorem ite_dUpdate_ne {c : Prop} [Decidable c] (r : String → PyVal)
    (k : String) (v : PyVal) {h : String} (hne : h ≠ k) :
    (if c then dUpdate r k v else r) h = r h := by
  split
  · exact dUpdate_ne _ _ _ hne
  · rfl

theorem dUpdate_self_apply (r : String → PyVal) (k h : String) :
    dUpdate r k (r k) h = r h := by
  by_cases hk : h = k
  · rw [hk, dUpdate_same]
  · exact dUpdate_ne _ _ _ hk

theorem rowJsonStage_title (hdrs : List String) (pl : List (String × PyVal))
    (r : String → PyVal) (hT : hdrs.contains "Title" = true) :
    rowJsonStage hdrs pl r "Title" =
      .vStr (normalise_textO (dictGet pl "title")) := by
  simp only [rowJsonStage, JSON_FIELD_MAP, List.foldl_cons, List.foldl_nil]
  rw [ite_dUpdate_ne _ _ _ (by decide), ite_dUpdate_ne _ _ _ (by decide),
      ite_dUpdate_ne _ _ _ (by decide), ite_dUpdate_ne _ _ _ (by decide),
      if_pos hT, dUpdate_same]

theorem rowTitleStage_apply (hdrs : List String) (r : String → PyVal)
    (h : String) : rowTitleStage hdrs r h = r h := by
  unfold rowTitleStage
  split
  · exact dUpdate_self_apply _ _ _
  · rfl

theorem rowBookTitleStage_book (hdrs : List String) (r : String → PyVal)
    (hB : hdrs.contains "C:Book Title" = true) :
    rowBookTitleStage hdrs r "C:Book Title" =
      .vStr (truncate_for_excel (r "Title") 50) := by
  unfold rowBookTitleStage
  rw [if_pos hB, dUpdate_same]

theorem rowBookTitleStage_ne (hdrs : List String) (r : String → PyVal)
    {h : String} (hne : h ≠ "C:Book Title") :
    rowBookTitleStage hdrs r h = r h :=
  ite_dUpdate_ne _ _ _ hne

theorem rowAuthorStage_ne (hdrs : List String) (pl : List (String × PyVal))
    (r : String → PyVal) {h : String} (hne : h ≠ "C:Author") :
    rowAuthorStage hdrs pl r h = r h := by
  simp only [rowAuthorStage]
  split
  · exact dUpdate_ne _ _ _ hne
  · rfl

theorem rowDescStage_ne (hdrs : List String) (pl : List (String × PyVal))
    (r : String → PyVal) {h : String} (hne : h ≠ "Description") :
    rowDescStage hdrs pl r h = r h :=
  ite_dUpdate_ne _ _ _ hne

theorem blankFold_other (headers : List String) (h : String) :
    ∀ (l : List String) (r : String → PyVal), h ∉ l →
      (l.foldl (fun r k => if headers.contains k then dUpdate r k (.vStr "") else r) r) h =
        r h := by
  intro l
  induction l with
  | nil => intro r _; rfl
  | cons k rest ih =>
    intro r hl
    simp only [List.foldl_cons]
    rw [ih _ (fun hm => hl (List.mem_cons_of_mem k hm))]
    exact ite_dUpdate_ne _ _ _ (fun he => hl (he ▸ List.mem_cons_self k rest))

theorem rowBlankStage_other (hdrs : List String) (r : String → PyVal)
    {h : String} (hne : h ∉ FORCED_BLANK_HEADERS) :
    rowBlankStage hdrs r h = r h :=
  blankFold_other hdrs h FORCED_BLANK_HEADERS r hne

theorem build_row_core_title (defaults : List (String × PyVal))
    (hdrs : List String) (payload : List (String × PyVal))
    (hT : hdrs.contains "Title" = true) :
    build_row_core defaults hdrs payload "Title" =
      .vStr (normalise_textO (dictGet (lowerKeys payload) "title")) := by
  unfold build_row_core
  rw [rowBlankStage_other _ _ (by decide), rowDescStage_ne _ _ _ (by decide),
      rowAuthorStage_ne _ _ _ (by decide), rowBookTitleStage_ne _ _ (by decide),
      rowTitleStage_apply, rowJsonStage_title _ _ _ hT]

theorem build_row_core_book (defaults : List (String × PyVal))
    (hdrs : List String) (payload : List (String × PyVal))
    (hT : hdrs.contains "Title" = true)
    (hB : hdrs.contains "C:Book Title" = true) :
    build_row_core defaults hdrs payload "C:Book Title" =
      .vStr (truncate_for_excel
        (.vStr (normalise_textO (dictGet (lowerKeys payload) "title"))) 50) := by
  unfold build_row_core
  rw [rowBlankStage_other _ _ (by decide), rowDescStage_ne _ _ _ (by decide),
      rowAuthorStage_ne _ _ _ (by decide), rowBookTitleStage_book _ _ hB,
      rowTitleStage_apply, rowJsonStage_title _ _ _ hT]

theorem truncate_for_excel_eq (v : PyVal) (l : Int) :
    truncate_for_excel v l = truncate (normalise_text v) l := rfl

theorem normalise_str_textO (o : Option PyVal) :
    normalise_str (normalise_textO o) = normalise_textO o := by
  unfold normalise_textO
  cases o.getD .vNone with
  | vNone => decide
  | vStr s => exact normalise_str_idem s
  | vInt n => exact normalise_str_idem _
  | vFloat q => exact normalise_str_idem _

theorem condUpdate_ne (v : String → PyVal) (c : Bool) (k : String) (x : PyVal)
    {h : String} (hne : h ≠ k) : condUpdate v c k x h = v h := by
  unfold condUpdate
  split
  · exact dUpdate_ne _ _ _ hne
  · rfl

theorem mirrorStage_eq (hdrs : List String) (v : String → PyVal)
    (hT : hdrs.contains "Title" = true)
    (hB : hdrs.contains "C:Book Title" = true) :
    mirrorStage hdrs v "C:Book Title" = v "Title" ∧
    mirrorStage hdrs v "Title" = v "Title" := by
  unfold mirrorStage
  rw [if_pos (by rw [hT, hB]; rfl)]
  exact ⟨dUpdate_same _ _ _, dUpdate_ne _ _ _ (by decide)⟩

theorem descStage_preserves (hdrs : List String) (pl : List (String × PyVal))
    (w v5 : String → PyVal) (h : descStage hdrs pl w = some v5) :
    v5 "Title" = w "Title" ∧ v5 "C:Book Title" = w "C:Book Title" := by
  unfold descStage at h
  by_cases h1 : hdrs.contains "*Description"
  · rw [if_pos h1] at h
    cases hd : build_description_j pl with
    | none => rw [hd] at h; simp at h
    | some d =>
      rw [hd] at h
      simp only [Option.bind_eq_bind, Option.some_bind, Option.pure_def,
        Option.some.injEq] at h
      constructor <;> rw [← h] <;> exact dUpdate_ne _ _ _ (by decide)
  · rw [if_neg h1] at h
    by_cases h2 : hdrs.contains "Description"
    · rw [if_pos h2] at h
      cases hd : build_description_j pl with
      | none => rw [hd] at h; simp at h
      | some d =>
        rw [hd] at h
        simp only [Option.bind_eq_bind, Option.some_bind, Option.pure_def,
          Option.some.injEq] at h
        constructor <;> rw [← h] <;> exact dUpdate_ne _ _ _ (by decide)
    · rw [if_neg h2] at h
      simp only [Option.pure_def, Option.some.injEq] at h
      rw [← h]
      exact ⟨rfl, rfl⟩

theorem overrideStage_title_book (hdrs : List String) (args : Args)
    (v : String → PyVal) :
    overrideStage hdrs args v "Title" = v "Title" ∧
    overrideStage hdrs args v "C:Book Title" = v "C:Book Title" := by
  constructor <;>
  · simp only [overrideStage]
    rw [condUpdate_ne _ _ _ _ (by decide), condUpdate_ne _ _ _ _ (by decide),
        condUpdate_ne _ _ _ _ (by decide), condUpdate_ne _ _ _ _ (by decide),
        condUpdate_ne _ _ _ _ (by decide), condUpdate_ne _ _ _ _ (by decide),
        condUpdate_ne _ _ _ _ (by decide),
        condUpdate_ne _ _ _ _ (by split <;> decide),
        condUpdate_ne _ _ _ _ (by split <;> decide),
        condUpdate_ne _ _ _ _ (by decide), condUpdate_ne _ _ _ _ (by decide)]

theorem condFallbackStage_ne (hdrs : List String)
    (payload : List (String × PyVal)) (args : Args) (v : String → PyVal)
    {h : String} (hne : h ≠ "*ConditionID") :
    condFallbackStage hdrs payload args v h = v h :=
  condUpdate_ne _ _ _ _ hne

/-- C4: when the schema contains both Title and C:Book Title, `build_row`
(the truncating variant) produces `row["C:Book Title"] =
truncate(row["Title"], 50)`, and `prepare_row_values` (the pre-truncation
variant) produces `row["C:Book Title"] == row["Title"]`. -/
theorem title_mirroring (hdrs : List String)
    (payload payload2 payload_lower : List (String × PyVal)) (args : Args)
    (baseline : Option (List (String × PyVal)))
    (hT : "Title" ∈ hdrs) (hB : "C:Book Title" ∈ hdrs) :
    (∃ t, build_row hdrs payload "Title" = .vStr t ∧
          build_row hdrs payload "C:Book Title" = .vStr (truncate t 50)) ∧
    (∀ r, prepare_row_values hdrs payload2 payload_lower args baseline = some r →
        r "C:Book Title" = r "Title") := by
  have hT' : hdrs.contains "Title" = true := List.elem_eq_true_of_mem hT
  have hB' : hdrs.contains "C:Book Title" = true := List.elem_eq_true_of_mem hB
  constructor
  · refine ⟨normalise_textO (dictGet (lowerKeys payload) "title"), ?_, ?_⟩
    · exact build_row_core_title DEFAULT_VALUES hdrs payload hT'
    · rw [show build_row hdrs payload = build_row_core DEFAULT_VALUES hdrs payload
        from rfl]
      rw [build_row_core_book DEFAULT_VALUES hdrs payload hT' hB',
        truncate_for_excel_eq]
      have : normalise_text
          (.vStr (normalise_textO (dictGet (lowerKeys payload) "title"))) =
          normalise_textO (dictGet (lowerKeys payload) "title") :=
        normalise_str_textO _
      rw [this]
  · intro r hprep
    unfold prepare_row_values at hprep
    simp only [Option.bind_eq_bind, Option.bind_eq_some, Option.some.injEq]
      at hprep
    obtain ⟨v3, h3, v5, h5, hr⟩ := hprep
    simp only [Option.pure_def, Option.some.injEq] at hr
    rw [← hr]
    rw [condFallbackStage_ne _ _ _ _ (by decide),
        condFallbackStage_ne _ _ _ _ (by decide),
        (overrideStage_title_book hdrs args v5).2,
        (overrideStage_title_book hdrs args v5).1]
    have hd := descStage_preserves hdrs payload_lower _ v5 h5
    rw [hd.1, hd.2]
    rw [(mirrorStage_eq hdrs v3 hT' hB').1, (mirrorStage_eq hdrs v3 hT' hB').2]

/-- C4 witness: mirroring evaluated on a concrete schema and payload. -/
theorem title_mirroring_witness :
    ("Title" ∈ ["Title", "C:Book Title"] ∧
     "C:Book Title" ∈ ["Title", "C:Book Title"]) ∧
    (∃ t, build_row ["Title", "C:Book Title"] [("title", .vStr "Moby Dick")]
            "Title" = .vStr t ∧
          build_row ["Title", "C:Book Title"] [("title", .vStr "Moby Dick")]
            "C:Book Title" = .vStr (truncate t 50)) ∧
    (∀ r, prepare_row_values ["Title", "C:Book Title"]
            [("title", .vStr "Moby Dick")] [("title", .vStr "Moby Dick")]
            Args.none' none = some r →
        r "C:Book Title" = r "Title") := by
  refine ⟨⟨by decide, by decide⟩, ?_⟩
  exact title_mirroring ["Title", "C:Book Title"] [("title", .vStr "Moby Dick")]
    [("title", .vStr "Moby Dick")] [("title", .vStr "Moby Dick")] Args.none'
    none (by decide) (by decide)

theorem cellVal_beyond (s : Sheet) (r c : Nat) (hr : s.rows.length < r) :
    cellVal s r c = .vNone := by
  unfold cellVal
  have hrow : s.rows.getD (r - 1) [] = [] :=
    List.getD_eq_default _ _ (by omega)
  rw [hrow]
  simp [List.getD]

theorem scan_step (s : Sheet) (col start : Nat) :
    scanEmptyFrom s col start =
      if cellEmpty (cellVal s start col) then start
      else scanEmptyFrom s col (start + 1) := by
  rw [scanEmptyFrom]

theorem scan_of_empty {s : Sheet} {col start : Nat}
    (h : cellEmpty (cellVal s start col) = true) :
    scanEmptyFrom s col start = start := by
  rw [scan_step, if_pos h]

theorem scan_of_occ {s : Sheet} {col start : Nat}
    (h : cellEmpty (cellVal s start col) = false) :
    scanEmptyFrom s col start = scanEmptyFrom s col (start + 1) := by
  rw [scan_step, if_neg (by simp [h])]

theorem scan_exact (s : Sheet) (col : Nat) :
    ∀ (k start : Nat),
      (∀ i, i < k → cellEmpty (cellVal s (start + i) col) = false) →
      cellEmpty (cellVal s (start + k) col) = true →
      scanEmptyFrom s col start = start + k := by
  intro k
  induction k with
  | zero =>
    intro start _ hk
    rw [Nat.add_zero] at hk
    rw [scan_of_empty hk]
    omega
  | succ k ih =>
    intro start hocc hend
    have h0 : cellEmpty (cellVal s start col) = false := by
      have := hocc 0 (by omega)
      simpa using this
    rw [scan_of_occ h0]
    have hrec := ih (start + 1)
      (fun i hi => by
        have := hocc (i + 1) (by omega)
        simpa [Nat.add_assoc, Nat.add_comm 1 i] using this)
      (by
        have : start + 1 + k = start + (k + 1) := by omega
        rw [this]; exact hend)
    rw [hrec]
    omega

theorem scan_ge (s : Sheet) (col : Nat) :
    ∀ start, start ≤ scanEmptyFrom s col start := by
  intro start
  generalize hm : s.rows.length + 1 - start = m
  induction m generalizing start with
  | zero =>
    have hst : s.rows.length < start := by omega
    rw [scan_of_empty (by rw [cellVal_beyond s start col hst]; rfl)]
  | succ m ih =>
    by_cases he : cellEmpty (cellVal s start col) = true
    · rw [scan_of_empty he]
    · rw [scan_of_occ (by simpa using he)]
      have hst : start ≤ s.rows.length := by
        by_contra hgt
        exact he (by rw [cellVal_beyond s start col (by omega)]; rfl)
      have := ih (start + 1) (by omega)
      omega

theorem scan_empty_and_bound (s : Sheet) (col : Nat) :
    ∀ start,
      cellEmpty (cellVal s (scanEmptyFrom s col start) col) = true ∧
      scanEmptyFrom s col start - start ≤ occCountFrom s col start := by
  intro start
  generalize hm : s.rows.length + 1 - start = m
  induction m generalizing start with
  | zero =>
    have hst : s.rows.length < start := by omega
    have he : cellEmpty (cellVal s start col) = true := by
      rw [cellVal_beyond s start col hst]; rfl
    rw [scan_of_empty he]
    exact ⟨he, by omega⟩
  | succ m ih =>
    by_cases he : cellEmpty (cellVal s start col) = true
    · rw [scan_of_empty he]
      exact ⟨he, by omega⟩
    · have he' : cellEmpty (cellVal s start col) = false := by simpa using he
      rw [scan_of_occ he']
      have hst : start ≤ s.rows.length := by
        by_contra hgt
        exact he (by rw [cellVal_beyond s start col (by omega)]; rfl)
      have hrec := ih (start + 1) (by omega)
      refine ⟨hrec.1, ?_⟩
      have hcount : occCountFrom s col start =
          occCountFrom s col (start + 1) + 1 := by
        unfold occCountFrom
        have h1 : s.rows.length + 1 - start =
            (s.rows.length + 1 - (start + 1)) + 1 := by omega
        rw [h1, List.range'_succ]
        rw [List.filter_cons_of_pos (by rw [he']; rfl)]
        rw [List.length_cons]
      omega

/-- C10: both insert-position scans are total functions whose result is
an empty Title cell, reached in at most as many steps as there are
occupied Title cells at or below their start row (`max_row + 1` for
`find_insert_row`, one past the header for `find_next_row`). -/
theorem scan_termination (s : Sheet) (col tcIdx startRow : Nat) :
    (cellEmpty (cellVal s (find_insert_row s col) col) = true ∧
      find_insert_row s col - (maxRow s + 1) ≤
        occCountFrom s col (maxRow s + 1)) ∧
    (cellEmpty (cellVal s (find_next_row s tcIdx startRow) (tcIdx + 1)) = true ∧
      find_next_row s tcIdx startRow - (startRow + 1) ≤
        occCountFrom s (tcIdx + 1) (startRow + 1)) :=
  ⟨scan_empty_and_bound s col (maxRow s + 1),
   scan_empty_and_bound s (tcIdx + 1) (startRow + 1)⟩

/-- C1 counterexample: a sheet whose single occupied row (below the
header in row 1) is followed by a stored fully-empty row — cleared cells
that openpyxl still counts in `max_row`.  The claimed target index is
`header_row + N + 1 = 3`, but `find_insert_row` starts its scan at
`max_row + 1 = 4` and returns 4. -/
theorem occupancy_scan_counterexample :
    claimShape exSheetC1 1 1 1 ∧ find_insert_row exSheetC1 1 ≠ 1 + 1 + 1 := by
  refine ⟨⟨?_, ?_⟩, ?_⟩
  · intro r h1 h2
    have hr : r = 2 := by omega
    subst hr
    decide
  · intro r c hr
    by_cases hr3 : r ≤ 3
    · have : r = 3 := by omega
      subst this
      show cellEmpty ((exSheetC1.rows.getD 2 []).getD (c - 1) .vNone) = true
      have : ([PyVal.vNone].getD (c - 1) .vNone) = .vNone := by
        cases c - 1 with
        | zero => rfl
        | succ k =>
          exact List.getD_eq_default _ _ (by simp)
      show cellEmpty ([PyVal.vNone].getD (c - 1) .vNone) = true
      rw [this]
      rfl
    · rw [cellVal_beyond exSheetC1 r c (by simp [exSheetC1]; omega)]
      rfl
  · have h4 : find_insert_row exSheetC1 1 = 4 := by
      show scanEmptyFrom exSheetC1 1 (maxRow exSheetC1 + 1) = 4
      have hm : maxRow exSheetC1 + 1 = 4 := rfl
      rw [hm]
      exact scan_of_empty (by decide)
    rw [h4]
    decide

/-- C1 amended: under the claim's sheet shape, `find_next_row` (the
json variant, which scans from just below the header) always lands on
`header_row + N + 1`; `find_insert_row` (the queue variant, which scans
from `max_row + 1`) lands there exactly when the sheet's cell storage
ends at the last occupied row — stored trailing empty rows push the
insertion below `header_row + N + 1`. -/
theorem occupancy_scan_amended (s : Sheet) (tcIdx headerRow n : Nat)
    (hshape : claimShape s (tcIdx + 1) headerRow n) :
    find_next_row s tcIdx headerRow = headerRow + n + 1 ∧
    (headerRow = 1 → s.rows.length = n + 1 →
      find_insert_row s (tcIdx + 1) = headerRow + n + 1) := by
  obtain ⟨hocc, hemp⟩ := hshape
  constructor
  · show scanEmptyFrom s (tcIdx + 1) (headerRow + 1) = headerRow + n + 1
    have := scan_exact s (tcIdx + 1) n (headerRow + 1)
      (fun i hi => hocc (headerRow + 1 + i) (by omega) (by omega))
      (hemp (headerRow + 1 + n) (tcIdx + 1) (by omega))
    rw [this]
    omega
  · intro h1 hlen
    show scanEmptyFrom s (tcIdx + 1) (maxRow s + 1) = headerRow + n + 1
    have hmr : maxRow s = n + 1 := by
      unfold maxRow
      omega
    rw [hmr]
    rw [scan_of_empty (hemp (n + 1 + 1) (tcIdx + 1) (by omega))]
    omega

/-- C1 witness: the amended scan law applied to a concrete sheet with one
occupied row and no stored trailing rows. -/
theorem occupancy_scan_witness :
    claimShape exSheetOcc 1 1 1 ∧
    find_next_row exSheetOcc 0 1 = 3 ∧
    find_insert_row exSheetOcc 1 = 3 := by
  have hshape : claimShape exSheetOcc 1 1 1 := by
    constructor
    · intro r h1 h2
      have hr : r = 2 := by omega
      subst hr
      decide
    · intro r c hr
      rw [cellVal_beyond exSheetOcc r c (by simp [exSheetOcc]; omega)]
      rfl
  have := occupancy_scan_amended exSheetOcc 0 1 1 hshape
  exact ⟨hshape, this.1, this.2 rfl rfl⟩

theorem find_insert_row_eq (s : Sheet) (col : Nat) :
    find_insert_row s col = maxRow s + 1 := by
  show scanEmptyFrom s col (maxRow s + 1) = maxRow s + 1
  refine scan_of_empty ?_
  rw [cellVal_beyond s _ col (by unfold maxRow; omega)]
  rfl

theorem set_append_last {α : Type} :
    ∀ (l : List α) (x c : α), (l ++ [x]).set l.length c = l ++ [c] := by
  intro l
  induction l with
  | nil => intro x c; rfl
  | cons a t ih =>
    intro x c
    show a :: (t ++ [x]).set t.length c = a :: (t ++ [c])
    rw [ih]

theorem setRowCells_append (rows : List (List PyVal)) (cells : List PyVal) :
    setRowCells rows (rows.length + 1) cells = rows ++ [cells] := by
  unfold setRowCells
  have h1 : rows.length + 1 - rows.length = 1 := by omega
  have h2 : rows.length + 1 - 1 = rows.length := by omega
  rw [h1, h2]
  show (rows ++ [[]]).set rows.length cells = rows ++ [cells]
  exact set_append_last rows [] cells

theorem append_row_spec (s : Sheet) (headers : List String)
    (rv : String → PyVal) (hrows : s.rows ≠ []) (hT : "Title" ∈ headers) :
    append_row s headers rv =
      .ok (⟨s.rows ++ [headers.map (fun h => coerceCell h (rv h))]⟩,
           s.rows.length + 1) := by
  have hlen : 0 < s.rows.length := List.length_pos.mpr hrows
  have hmr : maxRow s = s.rows.length := by unfold maxRow; omega
  have htarget : ∀ col, find_insert_row s col = s.rows.length + 1 := by
    intro col
    rw [find_insert_row_eq, hmr]
  simp only [append_row, if_pos (List.elem_eq_true_of_mem hT), htarget,
    setRowCells_append]

theorem getD_replicate_nil :
    ∀ (k j : Nat), (List.replicate k ([] : List PyVal)).getD j [] = [] := by
  intro k
  induction k with
  | zero => intro j; rfl
  | succ k ih =>
    intro j
    cases j with
    | zero => rfl
    | succ j => exact ih j

theorem getD_pad (rows : List (List PyVal)) (k i : Nat) :
    (rows ++ List.replicate k ([] : List PyVal)).getD i [] =
      rows.getD i [] := by
  by_cases hi : i < rows.length
  · exact List.getD_append _ _ _ _ hi
  · rw [List.getD_append_right _ _ _ _ (by omega), getD_replicate_nil,
      List.getD_eq_default _ _ (by omega)]

theorem cellVal_setCell_ne (s : Sheet) (t c : Nat) (v : PyVal) (r c' : Nat)
    (h1 : 1 ≤ r) (ht : 1 ≤ t) (hne : r ≠ t) :
    cellVal (setCell s t c v) r c' = cellVal s r c' := by
  unfold setCell cellVal
  have hidx : t - 1 ≠ r - 1 := by omega
  have hset : ∀ (l : List (List PyVal)) (x : List PyVal),
      (l.set (t - 1) x).getD (r - 1) [] = l.getD (r - 1) [] := by
    intro l x
    simp [List.getD, List.getElem?_set_ne hidx]
  rw [hset, getD_pad]

theorem applyCols_frame (target : Nat) (vals : String → PyVal)
    (ht : 1 ≤ target) :
    ∀ (hs : List String) (s : Sheet) (col r c : Nat), 1 ≤ r → r ≠ target →
      cellVal (applyCols target vals s col hs) r c = cellVal s r c := by
  intro hs
  induction hs with
  | nil => intro s col r c h1 hne; rfl
  | cons h rest ih =>
    intro s col r c h1 hne
    show cellVal (applyCols target vals
      (if (h == "") = true then s
       else setCell s target col (coerceCellJ h (vals h))) (col + 1) rest) r c =
      cellVal s r c
    rw [ih _ _ _ _ h1 hne]
    split
    · rfl
    · exact cellVal_setCell_ne _ _ _ _ _ _ h1 ht hne

/-- C7: each append call adds exactly one row and leaves every existing
cell unchanged.  For `append_row` (queue variant) the sheet grows by
exactly one stored row, every cell of every stored row keeps its value,
and in particular every occupied row (non-empty Title) is untouched; for
the json variant, `apply_row` at the index chosen by `find_next_row`
touches no other row, and the row it writes into had an empty Title cell
before the call. -/
theorem append_frame (s : Sheet) (headers : List String)
    (rv vals : String → PyVal) (tcIdx startRow : Nat)
    (hrows : s.rows ≠ []) (hT : "Title" ∈ headers) :
    (∃ s2, append_row s headers rv = .ok (s2, s.rows.length + 1) ∧
      s2.rows.length = s.rows.length + 1 ∧
      (∀ r c, 1 ≤ r → r ≤ s.rows.length → cellVal s2 r c = cellVal s r c) ∧
      (∀ r c, 1 ≤ r →
        cellEmpty (cellVal s r (headers.indexOf "Title" + 1)) = false →
        cellVal s2 r c = cellVal s r c)) ∧
    (∀ r c, 1 ≤ r → r ≠ find_next_row s tcIdx startRow →
      cellVal (apply_row s (find_next_row s tcIdx startRow) headers vals) r c =
        cellVal s r c) ∧
    cellEmpty (cellVal s (find_next_row s tcIdx startRow) (tcIdx + 1)) = true := by
  refine ⟨?_, ?_, (scan_empty_and_bound s (tcIdx + 1) (startRow + 1)).1⟩
  · refine ⟨⟨s.rows ++ [headers.map (fun h => coerceCell h (rv h))]⟩,
      append_row_spec s headers rv hrows hT, by simp, ?_, ?_⟩
    · intro r c h1 hle
      unfold cellVal
      have : (s.rows ++ [headers.map (fun h => coerceCell h (rv h))]).getD
          (r - 1) [] = s.rows.getD (r - 1) [] :=
        List.getD_append _ _ _ _ (by omega)
      rw [this]
    · intro r c h1 hocc
      have hle : r ≤ s.rows.length := by
        by_contra hgt
        rw [cellVal_beyond s r _ (by omega)] at hocc
        simp [cellEmpty] at hocc
      unfold cellVal
      have : (s.rows ++ [headers.map (fun h => coerceCell h (rv h))]).getD
          (r - 1) [] = s.rows.getD (r - 1) [] :=
        List.getD_append _ _ _ _ (by omega)
      rw [this]
  · intro r c h1 hne
    have htarget : 1 ≤ find_next_row s tcIdx startRow := by
      have := scan_ge s (tcIdx + 1) (startRow + 1)
      show 1 ≤ scanEmptyFrom s (tcIdx + 1) (startRow + 1)
      omega
    exact applyCols_frame _ vals htarget headers s 1 r c h1 hne

/-- C7 witness: the frame property applied to a concrete one-column
sheet. -/
theorem append_frame_witness :
    (exSheetOcc.rows ≠ [] ∧ "Title" ∈ ["Title"]) ∧
    (∃ s2, append_row exSheetOcc ["Title"] (fun _ => .vStr "New") =
        .ok (s2, exSheetOcc.rows.length + 1) ∧
      s2.rows.length = exSheetOcc.rows.length + 1 ∧
      (∀ r c, 1 ≤ r → r ≤ exSheetOcc.rows.length →
        cellVal s2 r c = cellVal exSheetOcc r c) ∧
      (∀ r c, 1 ≤ r →
        cellEmpty (cellVal exSheetOcc r (["Title"].indexOf "Title" + 1)) = false →
        cellVal s2 r c = cellVal exSheetOcc r c)) := by
  refine ⟨⟨by decide, by decide⟩, ?_⟩
  exact ((append_frame exSheetOcc ["Title"] (fun _ => .vStr "New")
    (fun _ => .vStr "New") 0 1 (by decide) (by decide)).1)

/-- C5: appending a row whose "Start price" is the string "5.00" writes
the float 5.0 into the cell, while the non-numeric "call for price" is
written back unchanged; both calls return normally (`.ok` — the failed
`float()` is caught inside the write loop), in the queue variant
(`append_row`) and the json variant (`apply_row`) alike. -/
theorem start_price_coercion :
    append_row exSheetC5 headersC5 rvNumeric =
      .ok (⟨[[.vStr "Title", .vStr "Start price"],
             [.vStr "X", .vFloat 5]]⟩, 2) ∧
    append_row exSheetC5 headersC5 rvNonNumeric =
      .ok (⟨[[.vStr "Title", .vStr "Start price"],
             [.vStr "X", .vStr "call for price"]]⟩, 2) ∧
    cellVal (apply_row exSheetC5 2 headersC5 rvNumeric) 2 2 = .vFloat 5 ∧
    cellVal (apply_row exSheetC5 2 headersC5 rvNonNumeric) 2 2 =
      .vStr "call for price" := by
  refine ⟨?_, ?_, by decide, by decide⟩
  · rw [append_row_spec exSheetC5 headersC5 rvNumeric (by decide) (by decide)]
    rfl
  · rw [append_row_spec exSheetC5 headersC5 rvNonNumeric (by decide) (by decide)]
    rfl

theorem required_sub_of_missing_nil {headers : List String}
    (h : missingHeaders headers = []) :
    ∀ x ∈ REQUIRED_HEADERS, x ∈ headers := by
  intro x hx
  by_contra hnx
  have hc : headers.contains x = false := by
    cases hcontains : headers.contains x
    · rfl
    · exact absurd (List.mem_of_elem_eq_true hcontains) hnx
  have hmem : x ∈ REQUIRED_HEADERS.filter (fun h => !headers.contains h) :=
    List.mem_filter.mpr ⟨hx, by rw [hc]; rfl⟩
  rw [show REQUIRED_HEADERS.filter (fun h => !headers.contains h) =
    missingHeaders headers from rfl, h] at hmem
  exact absurd hmem (List.not_mem_nil x)

/-- C8 counterexample: with an empty queue, `process_queue` returns
normally even though the workbook file is absent — the run does not fail
(though it also mutates nothing). -/
theorem abort_before_mutation_counterexample :
    process_queue none [] = .ok ⟨none, 0, 0, 0, []⟩ := rfl

/-- C8 amended: provided the queue holds at least one JSON file, a
missing workbook or any missing required header makes the run fail
before any mutation — the model records saved workbooks and moved inputs
only in a returned outcome, and these paths return errors carrying the
first five missing header names. -/
theorem abort_before_mutation_amended (files : List (String × JsonFile))
    (hne : files ≠ []) :
    process_queue none files = .error .workbookMissing ∧
    (∀ (wb : Workbook) (sheet : Sheet),
      lookupSheet wb "Listings" = some sheet →
      missingHeaders (read_headers sheet) ≠ [] →
      process_queue (some wb) files =
        .error (.missingColumns
          ((missingHeaders (read_headers sheet)).take 5))) := by
  have hne' : files.isEmpty = false := by
    cases files with
    | nil => exact absurd rfl hne
    | cons a l => rfl
  constructor
  · simp only [process_queue, hne', Bool.false_eq_true, if_false]
  · intro wb sheet hlk hmiss
    have hmiss' : (missingHeaders (read_headers sheet)).isEmpty = false := by
      cases hmm : missingHeaders (read_headers sheet) with
      | nil => exact absurd hmm hmiss
      | cons a l => rfl
    simp only [process_queue, hne', Bool.false_eq_true, if_false, hlk]
    rw [if_neg (by simp [hmiss'])]

/-- C8 witness: the amended statement applied to a one-file queue, once
with the workbook absent and once with a workbook whose Listings sheet
lacks almost every required header. -/
theorem abort_before_mutation_witness :
    ([("a.json", JsonFile.unparseable)] ≠ ([] : List (String × JsonFile)) ∧
     lookupSheet exWorkbookPoor "Listings" = some ⟨[[.vStr "Title"]]⟩ ∧
     missingHeaders (read_headers ⟨[[.vStr "Title"]]⟩) ≠ []) ∧
    process_queue none [("a.json", JsonFile.unparseable)] =
      .error .workbookMissing ∧
    process_queue (some exWorkbookPoor) [("a.json", JsonFile.unparseable)] =
      .error (.missingColumns
        ((missingHeaders (read_headers ⟨[[.vStr "Title"]]⟩)).take 5)) := by
  have hne : [("a.json", JsonFile.unparseable)] ≠
      ([] : List (String × JsonFile)) := by simp
  have hlk : lookupSheet exWorkbookPoor "Listings" =
      some ⟨[[.vStr "Title"]]⟩ := rfl
  have hmiss : missingHeaders
      (read_headers (⟨[[.vStr "Title"]]⟩ : Sheet)) ≠ [] := by decide
  exact ⟨⟨hne, hlk, hmiss⟩,
    (abort_before_mutation_amended _ hne).1,
    (abort_before_mutation_amended _ hne).2 exWorkbookPoor _ hlk hmiss⟩

theorem except_bind_ok {ε α β : Type} (a : α) (f : α → Except ε β) :
    (Except.ok a : Except ε α) >>= f = f a := rfl

theorem except_map_ok {ε α β : Type} (a : α) (f : α → β) :
    (Except.ok a : Except ε α).map f = .ok (f a) := rfl

/-- C6: in a three-file batch whose files parse except for exactly one
(in any position), `process_queue` appends exactly the two valid rows (in
queue order), reports exactly one skip, saves the workbook exactly once
with both rows present, moves exactly the two processed inputs, and
returns normally rather than aborting. -/
theorem batch_skip (wb : Workbook) (sheet : Sheet)
    (n1 n2 n3 : String) (f1 f2 f3 : JsonFile)
    (pA pB : List (String × PyVal)) (err : String)
    (hlk : lookupSheet wb "Listings" = some sheet)
    (hmiss : missingHeaders (read_headers sheet) = [])
    (hrows : sheet.rows ≠ [])
    (hone :
      (load_json f1 = .error err ∧ load_json f2 = .ok pA ∧
        load_json f3 = .ok pB) ∨
      (load_json f1 = .ok pA ∧ load_json f2 = .error err ∧
        load_json f3 = .ok pB) ∨
      (load_json f1 = .ok pA ∧ load_json f2 = .ok pB ∧
        load_json f3 = .error err)) :
    ∃ s1 s2 moved,
      append_row sheet (read_headers sheet)
        (build_row (read_headers sheet) pA) = .ok (s1, sheet.rows.length + 1) ∧
      append_row s1 (read_headers sheet)
        (build_row (read_headers sheet) pB) = .ok (s2, s1.rows.length + 1) ∧
      process_queue (some wb) [(n1, f1), (n2, f2), (n3, f3)] =
        .ok ⟨some (updateSheet wb "Listings" s2), 1, 2, 1, moved⟩ ∧
      moved.length = 2 := by
  have hT : "Title" ∈ read_headers sheet :=
    required_sub_of_missing_nil hmiss "Title" (by decide)
  have hA := append_row_spec sheet (read_headers sheet)
    (build_row (read_headers sheet) pA) hrows hT
  have hrows1 : (Sheet.mk (sheet.rows ++
      [(read_headers sheet).map
        (fun h => coerceCell h (build_row (read_headers sheet) pA h))])).rows ≠
      [] := by simp
  have hB := append_row_spec
    ⟨sheet.rows ++ [(read_headers sheet).map
      (fun h => coerceCell h (build_row (read_headers sheet) pA h))]⟩
    (read_headers sheet) (build_row (read_headers sheet) pB) hrows1 hT
  have hne' : ([(n1, f1), (n2, f2), (n3, f3)] :
      List (String × JsonFile)).isEmpty = false := rfl
  have hmissE : (missingHeaders (read_headers sheet)).isEmpty = true := by
    rw [hmiss]; rfl
  rcases hone with ⟨h1, h2, h3⟩ | ⟨h1, h2, h3⟩ | ⟨h1, h2, h3⟩
  · refine ⟨_, _, [n2, n3], hA, hB, ?_, rfl⟩
    simp only [process_queue, hne', Bool.false_eq_true, if_false, hlk,
      hmissE, if_true, List.foldlM_cons, List.foldlM_nil, h1, h2, h3,
      hA, hB, except_bind_ok, except_map_ok]
    rfl
  · refine ⟨_, _, [n1, n3], hA, hB, ?_, rfl⟩
    simp only [process_queue, hne', Bool.false_eq_true, if_false, hlk,
      hmissE, if_true, List.foldlM_cons, List.foldlM_nil, h1, h2, h3,
      hA, hB, except_bind_ok, except_map_ok]
    rfl
  · refine ⟨_, _, [n1, n2], hA, hB, ?_, rfl⟩
    simp only [process_queue, hne', Bool.false_eq_true, if_false, hlk,
      hmissE, if_true, List.foldlM_cons, List.foldlM_nil, h1, h2, h3,
      hA, hB, except_bind_ok, except_map_ok]
    rfl

/-- C6 witness: a concrete three-file batch (valid, malformed array,
valid) against a workbook holding exactly the required headers. -/
theorem batch_skip_witness :
    (lookupSheet exWorkbook "Listings" =
        some ⟨[REQUIRED_HEADERS.map (fun h => .vStr h)]⟩ ∧
      missingHeaders
        (read_headers ⟨[REQUIRED_HEADERS.map (fun h => .vStr h)]⟩) = [] ∧
      load_json (.object [("title", .vStr "A")]) =
        .ok [("title", .vStr "A")] ∧
      load_json (.array []) =
        Except.error "JSON payload must be an object" ∧
      load_json (.object [("title", .vStr "B")]) =
        .ok [("title", .vStr "B")]) ∧
    (∃ s1 s2 moved,
      append_row (⟨[REQUIRED_HEADERS.map (fun h => .vStr h)]⟩ : Sheet)
        (read_headers ⟨[REQUIRED_HEADERS.map (fun h => .vStr h)]⟩)
        (build_row (read_headers ⟨[REQUIRED_HEADERS.map (fun h => .vStr h)]⟩)
          [("title", .vStr "A")]) =
        .ok (s1, (⟨[REQUIRED_HEADERS.map (fun h => .vStr h)]⟩ : Sheet).rows.length + 1) ∧
      append_row s1
        (read_headers ⟨[REQUIRED_HEADERS.map (fun h => .vStr h)]⟩)
        (build_row (read_headers ⟨[REQUIRED_HEADERS.map (fun h => .vStr h)]⟩)
          [("title", .vStr "B")]) =
        .ok (s2, s1.rows.length + 1) ∧
      process_queue (some exWorkbook)
        [("a.json", .object [("title", .vStr "A")]),
         ("b.json", .array []),
         ("c.json", .object [("title", .vStr "B")])] =
        .ok ⟨some (updateSheet exWorkbook "Listings" s2), 1, 2, 1, moved⟩ ∧
      moved.length = 2) := by
  refine ⟨⟨rfl, ?_, rfl, rfl, rfl⟩, ?_⟩
  · rfl
  · exact batch_skip exWorkbook ⟨[REQUIRED_HEADERS.map (fun h => .vStr h)]⟩
      "a.json" "b.json" "c.json"
      (.object [("title", .vStr "A")]) (.array [])
      (.object [("title", .vStr "B")])
      [("title", .vStr "A")] [("title", .vStr "B")]
      "JSON payload must be an object" rfl (by rfl) (by simp)
      (Or.inr (Or.inl ⟨rfl, rfl, rfl⟩))
